import Mathlib

/-! NEST kernel: sparse node array, connection-rule registration, stopwatch.

A shallow embedding of

* `nestkernel/sparse_node_array.h`  (class `SparseNodeArray`),
* `nestkernel/connection_manager_impl.h`  (`ConnectionManager::register_conn_builder`),
* `nestkernel/stopwatch.h`  (`timers::StopwatchBase`),

followed by theorems about the embedded definitions.

Conventions.

* `index` and `size_t` values are natural numbers.  Where the source does unsigned
  arithmetic that can wrap (the stopwatch), the reduction modulo `2 ^ 64` is explicit.
* `assert( c )` is a fatal failure when `c` is false: the embedded operation then
  yields `Except.error Fatal.assertion_failed`.
* A `double` is idealised as an exact rational number.
-/

namespace nest

/-! ## Common -/

/-- Outcome of a violated `assert`. -/
inductive Fatal where
  | assertion_failed
  deriving DecidableEq, Repr

/-! ## `sparse_node_array.h` -/

/-- Modelled from the spec: class `Node` is only forward-declared in
`sparse_node_array.h` (`class Node;`).  A node object is represented by the identity of
the handle (`addr`, what a `Node*` compares by) and its global identifier (`gid`,
the spec's `node.gid`). -/
structure Node where
  addr : Nat
  gid : Nat
  deriving DecidableEq, Repr

/-- The struct `SparseNodeArray::NodeEntry`: a node handle and a local copy of its GID. -/
structure NodeEntry where
  node_ : Node
  gid_ : Nat
  deriving DecidableEq, Repr

/-- Accessor `NodeEntry::get_node`. -/
def NodeEntry.get_node (e : NodeEntry) : Node := e.node_

/-- Accessor `NodeEntry::get_gid`. -/
def NodeEntry.get_gid (e : NodeEntry) : Nat := e.gid_

/-- The private state of `SparseNodeArray`.  `nodes_` is the `BlockVector< NodeEntry >`
seen as the sequence of its elements; `gid_idx_scale_` is the `double` interpolation
factor, kept as a rational. -/
structure SparseNodeArray where
  nodes_ : List NodeEntry
  max_gid_ : Nat
  local_min_gid_ : Nat
  local_max_gid_ : Nat
  gid_idx_scale_ : ℚ
  deriving DecidableEq

namespace SparseNodeArray

/-- Modelled from the spec: the body of the constructor `SparseNodeArray()` is not in
`sparse_node_array.h` (only the declaration, "Create empty spare node array").  The
spec: "created empty at process start", `scale` is "1 when empty"; the three GID
scalars start at 0 as after `clear()`. -/
def empty : SparseNodeArray :=
  { nodes_ := [], max_gid_ := 0, local_min_gid_ := 0, local_max_gid_ := 0,
    gid_idx_scale_ := 1 }

/-- The member `size()`: `return nodes_.size();`. -/
def size (a : SparseNodeArray) : Nat := a.nodes_.length

/-- The member `clear()`: empties `nodes_`, zeroes the three GID scalars and sets the
scale to `1.`. -/
def clear (_a : SparseNodeArray) : SparseNodeArray :=
  { nodes_ := [], max_gid_ := 0, local_min_gid_ := 0, local_max_gid_ := 0,
    gid_idx_scale_ := 1 }

/-- The member `get_node_by_index( idx )`: `assert( idx < nodes_.size() );` then
`return nodes_[ idx ].node_;`. -/
def get_node_by_index (a : SparseNodeArray) (idx : Nat) : Except Fatal Node :=
  if h : idx < a.nodes_.length then
    Except.ok (a.nodes_.get ⟨idx, h⟩).node_
  else
    Except.error Fatal.assertion_failed

/-- The member `get_max_gid()`: `return max_gid_;`. -/
def get_max_gid (a : SparseNodeArray) : Nat := a.max_gid_

/-- Modelled from the spec: the body of `add_local_node( Node& )` is not in
`sparse_node_array.h`.  The spec: "appends an entry `{node, node.gid}`; updates
`local_min_gid`/`local_max_gid` to include the new GID; recomputes `scale`", with
`scale` being `(count-1) / (local_max_gid - local_min_gid)`.  The bounds of an empty
registry hold no entry, so the first GID becomes both bounds.  `max_gid` is raised to
the new GID as well: in the spec's scenario GIDs `[0, 4, 8, 12, 16]` are found after
five `add_local_node` calls alone and `20 > max_gid` holds there.  The quotient is
taken in `ℚ`, where a zero denominator (a single entry) gives `0`. -/
def add_local_node (a : SparseNodeArray) (node : Node) : SparseNodeArray :=
  let nodes := a.nodes_ ++ [{ node_ := node, gid_ := node.gid }]
  let lmin := if a.nodes_.length = 0 then node.gid else min a.local_min_gid_ node.gid
  let lmax := if a.nodes_.length = 0 then node.gid else max a.local_max_gid_ node.gid
  { nodes_ := nodes,
    max_gid_ := max a.max_gid_ node.gid,
    local_min_gid_ := lmin,
    local_max_gid_ := lmax,
    gid_idx_scale_ := ((nodes.length - 1 : Nat) : ℚ) / ((lmax - lmin : Nat) : ℚ) }

/-- Modelled from the spec: the body of `update_max_gid( index )` is not in
`sparse_node_array.h`.  The spec: "raises `max_gid` to `gid` if greater, without adding
an entry". -/
def update_max_gid (a : SparseNodeArray) (gid : Nat) : SparseNodeArray :=
  if a.max_gid_ < gid then { a with max_gid_ := gid } else a

/-- Modelled from the spec: the estimated index of `get_node_by_gid`,
"`i = floor((gid - local_min_gid) * scale)`, clamp into `[0, count-1]`". -/
def estimate_index (a : SparseNodeArray) (gid : Nat) : Nat :=
  (min (max 0 ⌊((gid - a.local_min_gid_ : Nat) : ℚ) * a.gid_idx_scale_⌋)
    ((a.nodes_.length - 1 : Nat) : ℤ)).toNat

/-- Modelled from the spec: the rightward scan of `get_node_by_gid`, over the entries
from position `i` on.  "If the entry at `i` matches, return it.  Otherwise scan strictly
rightward (never leftward), incrementing `i` while the entry's GID is less than the
target, until a match is found, the sequence ends, or an entry's GID exceeds the target
(a gap — target not local), returning null in the non-match cases."  The result is the
position of the match together with the handle stored there. -/
def scan_right (gid : Nat) : List NodeEntry → Nat → Option (Nat × Node)
  | [], _ => none
  | e :: rest, i =>
    if e.gid_ = gid then some (i, e.node_)
    else if e.gid_ < gid then scan_right gid rest (i + 1)
    else none

/-- Modelled from the spec: position and handle found by `get_node_by_gid`.  "If the
registry is empty, or `gid` falls outside `[local_min_gid, max_gid]`, return null
immediately.  Otherwise compute an estimated index ..., clamp ...", then scan to the
right from there. -/
def find_by_gid (a : SparseNodeArray) (gid : Nat) : Option (Nat × Node) :=
  if a.nodes_.length = 0 ∨ gid < a.local_min_gid_ ∨ a.max_gid_ < gid then none
  else scan_right gid (a.nodes_.drop (a.estimate_index gid)) (a.estimate_index gid)

/-- Modelled from the spec: the body of `get_node_by_gid( index )` is not in
`sparse_node_array.h` ("Returns 0 if GID is not local").  It returns the handle found
by the interpolation search of the spec, `none` standing for the null result. -/
def get_node_by_gid (a : SparseNodeArray) (gid : Nat) : Option Node :=
  (a.find_by_gid gid).map Prod.snd

/-- The mutating operations of the registry. -/
inductive Op where
  | add_local_node (node : Node)
  | update_max_gid (gid : Nat)
  | clear
  deriving DecidableEq, Repr

/-- One operation applied to a registry. -/
def Op.apply (a : SparseNodeArray) : Op → SparseNodeArray
  | Op.add_local_node node => a.add_local_node node
  | Op.update_max_gid gid => a.update_max_gid gid
  | Op.clear => a.clear

/-- The nodes held after one more operation, given the nodes held before it. -/
def Op.held (acc : List Node) : Op → List Node
  | Op.add_local_node node => acc ++ [node]
  | Op.update_max_gid _ => acc
  | Op.clear => []

/-- The registry reached from the empty one by a sequence of operations. -/
def run (ops : List Op) : SparseNodeArray := ops.foldl Op.apply empty

/-- The nodes held after a sequence of operations: those added since the last `clear`,
in the order of their addition. -/
def local_nodes (ops : List Op) : List Node := ops.foldl Op.held []

/-- The registry reached from the empty one by adding the given nodes in order. -/
def add_all (ns : List Node) : SparseNodeArray := ns.foldl add_local_node empty

/-- The nodes are given in strictly increasing GID order. -/
def gid_increasing (ns : List Node) : Prop := ns.Pairwise (fun m n => m.gid < n.gid)

instance (ns : List Node) : Decidable (gid_increasing ns) := by
  unfold gid_increasing; infer_instance

/-- The scenario of the spec: nodes with GIDs `[0, 4, 8, 12, 16]`, with handles
`100 .. 104`. -/
def scenario_nodes : List Node :=
  [⟨100, 0⟩, ⟨101, 4⟩, ⟨102, 8⟩, ⟨103, 12⟩, ⟨104, 16⟩]

/-- A skewed population: GIDs `[0, 5, 6, 7]`, with handles `100 .. 103`. -/
def skewed_nodes : List Node :=
  [⟨100, 0⟩, ⟨101, 5⟩, ⟨102, 6⟩, ⟨103, 7⟩]

/-- The entry `add_local_node` stores for a node. -/
def entry_of (n : Node) : NodeEntry := { node_ := n, gid_ := n.gid }

/-- Every entry lies between `local_min_gid_` and `max_gid_` and carries the GID of its
node. -/
def bounds_ok (a : SparseNodeArray) : Prop :=
  ∀ e ∈ a.nodes_, a.local_min_gid_ ≤ e.gid_ ∧ e.gid_ ≤ a.max_gid_ ∧ e.gid_ = e.node_.gid

/-- The adds of an operation sequence come in increasing GID order: each added node
has a larger GID than every node held at that point.  `held` are the nodes held before
the sequence. -/
def adds_increasing : List Node → List Op → Prop
  | _, [] => True
  | held, Op.add_local_node n :: rest =>
    (∀ m ∈ held, m.gid < n.gid) ∧ adds_increasing (held ++ [n]) rest
  | held, Op.update_max_gid _ :: rest => adds_increasing held rest
  | _, Op.clear :: rest => adds_increasing [] rest

/-- The GID stored in the first entry (0 for an empty registry). -/
def first_gid (a : SparseNodeArray) : Nat := (a.nodes_.head?.map NodeEntry.gid_).getD 0

/-- The GID stored in the last entry (0 for an empty registry). -/
def last_gid (a : SparseNodeArray) : Nat := (a.nodes_.getLast?.map NodeEntry.gid_).getD 0

/-- The scalars of the registry agree with its entries: the entries are strictly
ascending in GID, `local_min_gid_` and `local_max_gid_` are the GIDs of the first and
the last entry (0 when there is none), `local_max_gid_` does not exceed `max_gid_`, and
the scale is 1 for an empty registry and `(count-1) / (local_max_gid - local_min_gid)`
otherwise. -/
def scalars_ok (a : SparseNodeArray) : Prop :=
  a.nodes_.Pairwise (fun e f => e.gid_ < f.gid_) ∧
  a.local_min_gid_ = a.first_gid ∧
  a.local_max_gid_ = a.last_gid ∧
  a.local_max_gid_ ≤ a.max_gid_ ∧
  a.gid_idx_scale_ =
    if a.nodes_ = [] then 1
    else ((a.nodes_.length - 1 : Nat) : ℚ) / ((a.local_max_gid_ - a.local_min_gid_ : Nat) : ℚ)

/-- The denominator `local_max_gid - local_min_gid` of the scale. -/
def scale_denominator (a : SparseNodeArray) : Nat := a.local_max_gid_ - a.local_min_gid_

/-- The scenario of the spec followed by `update_max_gid( 20 )`. -/
def scenario_ops : List Op := scenario_nodes.map Op.add_local_node ++ [Op.update_max_gid 20]

/-- The nodes with the given GIDs; the handle of the node with GID `g` is `g + 100`. -/
def nodes_of_gids (gs : List Nat) : List Node := gs.map (fun g => ⟨g + 100, g⟩)

/-- The GIDs below `N` that are local on rank `r` of `P` processes: those with
`g mod P == r` (round-robin distribution) and those in `R` (replicated on every
process), in increasing order. -/
def local_gids (P r : Nat) (R : List Nat) (N : Nat) : List Nat :=
  (List.range N).filter (fun g => g % P = r ∨ g ∈ R)

/-- The registry of rank `r` of `P` processes for the GIDs below `N`, with `R`
replicated. -/
def rank_registry (P r : Nat) (R : List Nat) (N : Nat) : SparseNodeArray :=
  add_all (nodes_of_gids (local_gids P r R N))

end SparseNodeArray

/-! ## `connection_manager_impl.h` -/

/-- Modelled from the spec: the class behind `connruledict_` and `thirdconnruledict_`
(a `DictionaryDatum`) is not in `connection_manager_impl.h`, which only calls
`known( name )` and `insert( name, id )` on it.  The spec: a mapping "from a unique rule
name to a dense integer id".  It is kept as the list of its bindings, at most one per
name, in the order in which the names were first inserted. -/
structure Dictionary where
  bindings : List (String × Nat)
  deriving DecidableEq, Repr

namespace Dictionary

/-- Modelled from the spec: a dictionary without bindings. -/
def empty : Dictionary := { bindings := [] }

/-- Modelled from the spec: `known( name )`, whether `name` is bound. -/
def known (d : Dictionary) (name : String) : Bool :=
  d.bindings.any (fun b => b.1 == name)

/-- Modelled from the spec: the id bound to `name`, if any (the name lookup done when a
rule is resolved). -/
def lookup (d : Dictionary) (name : String) : Option Nat :=
  (d.bindings.find? (fun b => b.1 == name)).map Prod.snd

/-- Modelled from the spec: `insert( name, id )` binds `name` to `id`; a name that is
already bound is re-bound in place, so that names stay unique. -/
def insert (d : Dictionary) (name : String) (id : Nat) : Dictionary :=
  if d.known name then
    { bindings := d.bindings.map (fun b => if b.1 == name then (name, id) else b) }
  else
    { bindings := d.bindings ++ [(name, id)] }

end Dictionary

/-- Modelled from the spec: the template argument `ConnBuilder` of
`register_conn_builder` ("a compiled-in connection strategy type"), represented by a tag
that tells the strategy types apart. -/
structure ConnBuilder where
  tag : Nat
  deriving DecidableEq, Repr

/-- The object `new BipartiteConnBuilderFactory< ConnBuilder >()`, an element of
`connbuilder_factories_`: the factory for one strategy type. -/
structure BipartiteConnBuilderFactory where
  builder : ConnBuilder
  deriving DecidableEq, Repr

/-- The object `new ThirdConnBuilderFactory< ThirdConnBuilder >()`, an element of
`thirdconnbuilder_factories_`. -/
structure ThirdConnBuilderFactory where
  builder : ConnBuilder
  deriving DecidableEq, Repr

/-- The members of `ConnectionManager` that the registration functions touch.  The
class declaration is in `connection_manager.h`, not part of the sources at hand; the
four members are taken from their uses in `connection_manager_impl.h`. -/
structure ConnectionManager where
  connruledict_ : Dictionary
  connbuilder_factories_ : List BipartiteConnBuilderFactory
  thirdconnruledict_ : Dictionary
  thirdconnbuilder_factories_ : List ThirdConnBuilderFactory
  deriving DecidableEq, Repr

namespace ConnectionManager

/-- Modelled from the spec: the rule registry before any registration (both name tables
and both factory sequences empty); the constructor is in `connection_manager.cpp`. -/
def empty : ConnectionManager :=
  { connruledict_ := Dictionary.empty, connbuilder_factories_ := [],
    thirdconnruledict_ := Dictionary.empty, thirdconnbuilder_factories_ := [] }

/-- The template `register_conn_builder< ConnBuilder >( name )`.  The result is the
outcome of the call together with the manager as the call leaves it; after a failed
`assert` that is the manager at the point of the abort.  `assert( cb )` cannot fail
(`new` does not return null).  `const int id = connbuilder_factories_.size();` is taken
without narrowing: the number of factories is far below `2 ^ 31`. -/
def register_conn_builder (m : ConnectionManager) (cb : ConnBuilder) (name : String) :
    Except Fatal Unit × ConnectionManager :=
  if m.connruledict_.known name then
    (Except.error Fatal.assertion_failed, m)
  else
    let cbf : BipartiteConnBuilderFactory := { builder := cb }
    let id := m.connbuilder_factories_.length
    let m1 := { m with connbuilder_factories_ := m.connbuilder_factories_ ++ [cbf] }
    (Except.ok (), { m1 with connruledict_ := m1.connruledict_.insert name id })

/-- The template `register_third_conn_builder< ThirdConnBuilder >( name )`, the same
steps on `thirdconnruledict_` and `thirdconnbuilder_factories_`. -/
def register_third_conn_builder (m : ConnectionManager) (cb : ConnBuilder) (name : String) :
    Except Fatal Unit × ConnectionManager :=
  if m.thirdconnruledict_.known name then
    (Except.error Fatal.assertion_failed, m)
  else
    let cbf : ThirdConnBuilderFactory := { builder := cb }
    let id := m.thirdconnbuilder_factories_.length
    let m1 := { m with thirdconnbuilder_factories_ := m.thirdconnbuilder_factories_ ++ [cbf] }
    (Except.ok (), { m1 with thirdconnruledict_ := m1.thirdconnruledict_.insert name id })

/-- The manager after a successful `register_conn_builder` call. -/
def registered (m : ConnectionManager) (cb : ConnBuilder) (name : String) : ConnectionManager :=
  { m with
    connbuilder_factories_ := m.connbuilder_factories_ ++ [{ builder := cb }],
    connruledict_ := m.connruledict_.insert name m.connbuilder_factories_.length }

/-- A sequence of `register_conn_builder` calls, one per `(name, strategy type)` pair, in
order.  A failed assertion aborts the program: the remaining calls are not made. -/
def register_all (m : ConnectionManager) : List (String × ConnBuilder) →
    Except Fatal Unit × ConnectionManager
  | [] => (Except.ok (), m)
  | (name, cb) :: rest =>
    match m.register_conn_builder cb name with
    | (Except.ok _, m1) => register_all m1 rest
    | (Except.error e, m1) => (Except.error e, m1)

/-- The scenario of the spec: the rule names `"one_to_one"` and `"all_to_all"`
registered under distinct strategy types. -/
def scenario_rules : List (String × ConnBuilder) :=
  [("one_to_one", ⟨1⟩), ("all_to_all", ⟨2⟩)]

/-- The factory a rule name resolves to: the name lookup followed by the indexed access
into `connbuilder_factories_`. -/
def resolve (m : ConnectionManager) (name : String) : Option BipartiteConnBuilderFactory :=
  (m.connruledict_.lookup name).bind (fun id => m.connbuilder_factories_[id]?)

end ConnectionManager

/-! ## `connection_manager_impl.h`: events to and from devices -/

/-- Modelled from the spec: an event handed to the router; only its identity matters
here. -/
structure Event where
  id : Nat
  deriving DecidableEq, Repr

/-- Modelled from the spec: one delivery "into target input buffers (external
collaborator state)": the event and the target that receives it. -/
structure Delivery where
  target : Nat
  event : Event
  deriving DecidableEq, Repr

/-- Modelled from the spec: the routing table of one thread, "a mapping from
ordinary-node identifier to the set of subscribed device targets, and the inverse
mapping from local device index to its ordinary-node targets".  Both mappings are kept
as lists of bindings. -/
structure ThreadDeviceTable where
  to_devices : List (Nat × List Nat)
  from_devices : List (Nat × List Nat)
  deriving DecidableEq, Repr

/-- Modelled from the spec: the class behind the member `target_table_devices_`
(`target_table_devices_impl.h` is not among the sources): one routing table per
thread. -/
structure TargetTableDevices where
  threads : List ThreadDeviceTable
  deriving DecidableEq, Repr

/-- Modelled from the spec: the per-connection parameters that
`kernel().model_manager.get_connection_models( tid )` supplies; which parameters these
are is outside the routing. -/
structure ConnectorModel where
  syn_id : Nat
  deriving DecidableEq, Repr

namespace ThreadDeviceTable

/-- Modelled from the spec: the devices subscribed to a source node on this thread
(none when the source has no binding). -/
def subscribed (t : ThreadDeviceTable) (source_node_id : Nat) : List Nat :=
  ((t.to_devices.find? (fun b => b.1 == source_node_id)).map Prod.snd).getD []

/-- Modelled from the spec: the ordinary-node targets of a local device on this
thread. -/
def targets (t : ThreadDeviceTable) (ldid : Nat) : List Nat :=
  ((t.from_devices.find? (fun b => b.1 == ldid)).map Prod.snd).getD []

end ThreadDeviceTable

namespace TargetTableDevices

/-- Modelled from the spec: `send_to_device( tid, source_node_id, e, cm )`, the spec's
`route_outgoing`: "for the given thread's local table, delivers a copy (or reference,
per event-type semantics) of `event` to every device subscribed to `source_node_id` on
that thread.  Zero subscribers is a silent no-op."  The result is the list of
deliveries made, in order, and the tables after the call; there is no result for a
thread id without a table. -/
def send_to_device (t : TargetTableDevices) (tid source_node_id : Nat) (e : Event)
    (_cm : List ConnectorModel) : Option (List Delivery × TargetTableDevices) :=
  match t.threads[tid]? with
  | none => none
  | some table =>
    some ((table.subscribed source_node_id).map (fun d => { target := d, event := e }), t)

/-- Modelled from the spec: `send_from_device( tid, ldid, e, cm )`, the spec's
`route_incoming`: "symmetric delivery from a device to its ordinary-node targets on
that thread". -/
def send_from_device (t : TargetTableDevices) (tid ldid : Nat) (e : Event)
    (_cm : List ConnectorModel) : Option (List Delivery × TargetTableDevices) :=
  match t.threads[tid]? with
  | none => none
  | some table =>
    some ((table.targets ldid).map (fun d => { target := d, event := e }), t)

end TargetTableDevices

/-- The member `ConnectionManager::send_to_devices( tid, source_node_id, e )`, for
`Event&` and, with the same body, for `SecondaryEvent&`: it forwards to
`target_table_devices_.send_to_device` with the connection models of the thread.  The
member `target_table_devices_` and `kernel().model_manager.get_connection_models` are
passed in. -/
def ConnectionManager.send_to_devices (target_table_devices_ : TargetTableDevices)
    (get_connection_models : Nat → List ConnectorModel) (tid source_node_id : Nat)
    (e : Event) : Option (List Delivery × TargetTableDevices) :=
  target_table_devices_.send_to_device tid source_node_id e (get_connection_models tid)

/-- The member `ConnectionManager::send_from_device( tid, ldid, e )`. -/
def ConnectionManager.send_from_device (target_table_devices_ : TargetTableDevices)
    (get_connection_models : Nat → List ConnectorModel) (tid ldid : Nat)
    (e : Event) : Option (List Delivery × TargetTableDevices) :=
  target_table_devices_.send_from_device tid ldid e (get_connection_models tid)

/-- A router with two threads: on thread 0 the source node 7 has the devices 20, 21 and
22 subscribed and the source node 8 has none. -/
def example_router : TargetTableDevices :=
  { threads :=
      [{ to_devices := [(7, [20, 21, 22]), (8, [])], from_devices := [(0, [7])] },
       { to_devices := [], from_devices := [] }] }

/-! ## `stopwatch.h` -/

namespace timers

/-- The enum `timeunit_t : size_t`. -/
inductive timeunit_t where
  | NANOSEC
  | MICROSEC
  | MILLISEC
  | SECONDS
  | MINUTES
  | HOURS
  | DAYS
  deriving DecidableEq, Repr

/-- The enumerator values: `NANOSEC = 1`, each further one a multiple of the previous. -/
def timeunit_t.val : timeunit_t → Nat
  | NANOSEC => 1
  | MICROSEC => 1 * 1000
  | MILLISEC => 1 * 1000 * 1000
  | SECONDS => 1 * 1000 * 1000 * 1000
  | MINUTES => 1 * 1000 * 1000 * 1000 * 60
  | HOURS => 1 * 1000 * 1000 * 1000 * 60 * 60
  | DAYS => 1 * 1000 * 1000 * 1000 * 60 * 60 * 24

/-- Number of values of `size_t` (64 bit). -/
def SIZE_T_MOD : Nat := 2 ^ 64

/-- Unsigned `a + b` on `size_t`. -/
def size_t_add (a b : Nat) : Nat := (a + b) % SIZE_T_MOD

/-- Unsigned `a - b` on `size_t`: it wraps around when `a < b`. -/
def size_t_sub (a b : Nat) : Nat := (a % SIZE_T_MOD + (SIZE_T_MOD - b % SIZE_T_MOD)) % SIZE_T_MOD

/-- Unsigned `a * b` on `size_t`. -/
def size_t_mul (a b : Nat) : Nat := (a * b) % SIZE_T_MOD

/-- The struct `timespec` that `clock_gettime` fills: whole seconds and the nanoseconds
of the running second (`tv_nsec` below `10 ^ 9`), both non-negative for a clock
reading. -/
structure timespec where
  tv_sec : Nat
  tv_nsec : Nat
  deriving DecidableEq, Repr

/-- The number of microseconds that a clock reading of `tv_sec` seconds and `tv_nsec`
nanoseconds represents, as the documentation of `get_current_time` words its result
("current time in microseconds"). -/
def claimed_microseconds (now : timespec) : Nat :=
  now.tv_sec * 1000000 + now.tv_nsec / 1000

/-- The data members of `StopwatchBase< clock_type >` (timing not disabled). -/
structure StopwatchBase where
  _beg : Nat
  _end : Nat
  _prev_elapsed : Nat
  _running : Bool
  deriving DecidableEq, Repr

namespace StopwatchBase

/-- The member `reset()`. -/
def reset (_sw : StopwatchBase) : StopwatchBase :=
  { _beg := 0, _end := 0, _prev_elapsed := 0, _running := false }

/-- The constructor `StopwatchBase()`: it calls `reset()` on the members, whatever they
hold before. -/
def init (uninitialised : StopwatchBase) : StopwatchBase := uninitialised.reset

/-- The member `isRunning()`. -/
def isRunning (sw : StopwatchBase) : Bool := sw._running

/-- The member `start()`; `now` is the value `get_current_time()` returns in the call. -/
def start (sw : StopwatchBase) (now : Nat) : StopwatchBase :=
  if ¬ sw.isRunning then
    { _prev_elapsed := size_t_add sw._prev_elapsed (size_t_sub sw._end sw._beg),
      _end := now,
      _beg := now,
      _running := true }
  else sw

/-- The member `stop()`; `now` is the value `get_current_time()` returns in the call. -/
def stop (sw : StopwatchBase) (now : Nat) : StopwatchBase :=
  if sw.isRunning then
    { sw with _end := now, _running := false }
  else sw

/-- The local `time_elapsed` of `elapsed()`; `now` is the value `get_current_time()`
would return in the call (it is read only when the stopwatch is running). -/
def time_elapsed (sw : StopwatchBase) (now : Nat) : Nat :=
  if sw.isRunning then
    size_t_add (size_t_sub now sw._beg) sw._prev_elapsed
  else
    size_t_add (size_t_sub sw._end sw._beg) sw._prev_elapsed

/-- The member `elapsed( timeunit )`:
`static_cast< double >( time_elapsed ) / timeunit`, as an exact quotient. -/
def elapsed (sw : StopwatchBase) (now : Nat) (timeunit : timeunit_t) : ℚ :=
  (sw.time_elapsed now : ℚ) / (timeunit.val : ℚ)

/-- One measured run: `start()` at clock value `p.1`, then `stop()` at clock value
`p.2`. -/
def run_once (sw : StopwatchBase) (p : Nat × Nat) : StopwatchBase :=
  (sw.start p.1).stop p.2

/-- The alternating sequence `start(t1), stop(t2), ..., start(t_{2n-1}), stop(t_{2n})`,
given as the list of the pairs `(t_{2k-1}, t_{2k})`. -/
def run_all (sw : StopwatchBase) (l : List (Nat × Nat)) : StopwatchBase :=
  l.foldl run_once sw

/-- The clock readings `t1, t2, ...` of an alternating sequence never decrease, starting
at or after `t0`, and are values of `size_t`. -/
def clock_ok : Nat → List (Nat × Nat) → Prop
  | _, [] => True
  | t0, p :: rest => t0 ≤ p.1 ∧ p.1 ≤ p.2 ∧ p.2 < SIZE_T_MOD ∧ clock_ok p.2 rest

/-- The sum of the lengths `t_{2k} - t_{2k-1}` of the measured runs. -/
def total (l : List (Nat × Nat)) : Nat := (l.map (fun p => p.2 - p.1)).sum

/-- The last stop time of an alternating sequence (`t0` when there is none). -/
def last_stop : Nat → List (Nat × Nat) → Nat
  | t0, [] => t0
  | _, p :: rest => last_stop p.2 rest

/-- The time accumulated by a stopped stopwatch, without wrap-around:
`_prev_elapsed + (_end - _beg)`. -/
def accumulated (sw : StopwatchBase) : Nat := sw._prev_elapsed + (sw._end - sw._beg)

/-- A stopped stopwatch whose members are consistent: `_end >= _beg`, `_end` is a value
of `size_t`, and the accumulated time does not exceed the last clock reading. -/
def stopped_ok (sw : StopwatchBase) : Prop :=
  sw._running = false ∧ sw._beg ≤ sw._end ∧ sw._end < SIZE_T_MOD ∧ sw.accumulated ≤ sw._end

/-- The usage example of `stopwatch.h`: a run of 15.34 s and a run of 11.22 s, the clock
readings in nanoseconds. -/
def example_runs : List (Nat × Nat) :=
  [(1000, 15340001000), (20000000000, 31220000000)]

/-- The static member `get_current_time()`:
`return now.tv_nsec + now.tv_sec * timeunit_t::SECONDS;` in `size_t` arithmetic, where
`now` is the reading that `clock_gettime( clock_type, &now )` stored. -/
def get_current_time (now : timespec) : Nat :=
  size_t_add now.tv_nsec (size_t_mul now.tv_sec timeunit_t.SECONDS.val)

/-- A call of one of the state-changing members of `StopwatchBase`; `start()` and
`stop()` carry the value `get_current_time()` returns in the call. -/
inductive Call where
  | start (now : Nat)
  | stop (now : Nat)
  | reset
  deriving DecidableEq, Repr

/-- One call applied to a stopwatch. -/
def Call.apply (sw : StopwatchBase) : Call → StopwatchBase
  | Call.start now => sw.start now
  | Call.stop now => sw.stop now
  | Call.reset => sw.reset

/-- The stopwatch reached from construction by a sequence of calls. -/
def run_calls (uninitialised : StopwatchBase) (calls : List Call) : StopwatchBase :=
  calls.foldl Call.apply (init uninitialised)

/-- The clock readings of a sequence of calls never decrease, starting at or after
`t0`, and are values of `size_t`. -/
def calls_clock_ok : Nat → List Call → Prop
  | _, [] => True
  | t0, Call.start now :: rest => t0 ≤ now ∧ now < SIZE_T_MOD ∧ calls_clock_ok now rest
  | t0, Call.stop now :: rest => t0 ≤ now ∧ now < SIZE_T_MOD ∧ calls_clock_ok now rest
  | t0, Call.reset :: rest => calls_clock_ok t0 rest

/-- The last clock reading of a sequence of calls (`t0` when there is none). -/
def last_reading : Nat → List Call → Nat
  | t0, [] => t0
  | _, Call.start now :: rest => last_reading now rest
  | _, Call.stop now :: rest => last_reading now rest
  | t0, Call.reset :: rest => last_reading t0 rest

/-- The members satisfy `_end >= _beg`, and `_end` is not after the clock reading
`t`, a value of `size_t`. -/
def end_ge_beg (sw : StopwatchBase) (t : Nat) : Prop :=
  sw._beg ≤ sw._end ∧ sw._end ≤ t ∧ t < SIZE_T_MOD

/-- A sequence of calls with clock readings in nanoseconds: start, stop, a second
start while stopped, a `start()` while running, reset, start. -/
def example_calls : List Call :=
  [Call.start 1000, Call.stop 5000, Call.start 7000, Call.start 8000, Call.reset,
    Call.start 9000]

end StopwatchBase

end timers

/-! ## `stopwatch.h`: the class template `Stopwatch` -/

/-- The enum `StopwatchVerbosity`. -/
inductive StopwatchVerbosity where
  | Normal
  | Detailed
  deriving DecidableEq, Repr

/-- The enum `StopwatchType`. -/
inductive StopwatchType where
  | MasterOnly
  | Threaded
  deriving DecidableEq, Repr

/-- A type that occurs as third template argument of `Stopwatch`: `void`, or the class
type `std::enable_if< b >`.  The latter is a type for either value of `b`; only its
member `type` depends on `b`. -/
inductive TemplateArg where
  | void
  | enable_if (b : Bool)
  deriving DecidableEq, Repr

/-- The alias `std::enable_if_t< b >`, that is `std::enable_if< b >::type`: `void` when
`b` holds, no type at all otherwise (the specialization using it is then discarded). -/
def enable_if_t (b : Bool) : Option TemplateArg :=
  if b then some TemplateArg.void else none

/-- The default of the third template parameter of `Stopwatch`: `typename = void`. -/
def default_third : TemplateArg := TemplateArg.void

/-- The four definitions of `Stopwatch` in `stopwatch.h`, in the order of the file:
the primary template, the explicit specialization with empty members, the partial
specialization with empty members for threaded timers, and the partial specialization
with one stopwatch per thread. -/
inductive StopwatchClass where
  | primary
  | empty_master_only
  | empty_threaded
  | threaded
  deriving DecidableEq, Repr

/-- The definition that `Stopwatch< detailed_timer, threaded_timer, third >` names.  The
explicit specialization is written for the arguments `StopwatchVerbosity::Detailed`,
`StopwatchType::MasterOnly`, `std::enable_if< not use_detailed_timers >`; the two
partial specializations for `StopwatchType::Threaded` and a third argument
`std::enable_if_t< ... >`.  A specialization is used when the arguments are the ones it
is written for, otherwise the primary template is. -/
def select_specialization (use_detailed_timers use_threaded_timers : Bool)
    (detailed_timer : StopwatchVerbosity) (threaded_timer : StopwatchType)
    (third : TemplateArg) : StopwatchClass :=
  if detailed_timer = StopwatchVerbosity.Detailed ∧ threaded_timer = StopwatchType.MasterOnly
      ∧ third = TemplateArg.enable_if (!use_detailed_timers) then
    StopwatchClass.empty_master_only
  else if threaded_timer = StopwatchType.Threaded
      ∧ enable_if_t (use_threaded_timers
          && (detailed_timer == StopwatchVerbosity.Detailed && !use_detailed_timers))
        = some third then
    StopwatchClass.empty_threaded
  else if threaded_timer = StopwatchType.Threaded
      ∧ enable_if_t (use_threaded_timers
          && (detailed_timer == StopwatchVerbosity.Normal || use_detailed_timers))
        = some third then
    StopwatchClass.threaded
  else
    StopwatchClass.primary

/-- An object of the primary template (its two `StopwatchBase` members) or of one of
the two specializations with empty members (no data). -/
inductive Stopwatch where
  | primary (walltime_timer_ cputime_timer_ : timers.StopwatchBase)
  | empty
  deriving DecidableEq, Repr

namespace Stopwatch

/-- A freshly constructed object of the given definition; the members of the threaded
measuring specialization are defined outside `stopwatch.h` and are not covered. -/
def construct (uninitialised : timers.StopwatchBase) : StopwatchClass → Option Stopwatch
  | StopwatchClass.primary =>
    some (Stopwatch.primary (timers.StopwatchBase.init uninitialised)
      (timers.StopwatchBase.init uninitialised))
  | StopwatchClass.empty_master_only => some Stopwatch.empty
  | StopwatchClass.empty_threaded => some Stopwatch.empty
  | StopwatchClass.threaded => none

/-- The member `start()`.  In the primary template the body is under
`#pragma omp master`: only the master thread (`master = true`) runs it.  `wall_now` and
`cpu_now` are the readings of the two clocks. -/
def start (sw : Stopwatch) (master : Bool) (wall_now cpu_now : Nat) : Stopwatch :=
  match sw with
  | primary w c => if master then primary (w.start wall_now) (c.start cpu_now) else primary w c
  | empty => empty

/-- The member `stop()`. -/
def stop (sw : Stopwatch) (master : Bool) (wall_now cpu_now : Nat) : Stopwatch :=
  match sw with
  | primary w c => if master then primary (w.stop wall_now) (c.stop cpu_now) else primary w c
  | empty => empty

/-- The member `isRunning()`. -/
def isRunning (sw : Stopwatch) (master : Bool) : Bool :=
  match sw with
  | primary w _ => if master then w.isRunning else false
  | empty => false

/-- The member `elapsed( timeunit )`. -/
def elapsed (sw : Stopwatch) (master : Bool) (wall_now : Nat)
    (timeunit : timers.timeunit_t) : ℚ :=
  match sw with
  | primary w _ => if master then w.elapsed wall_now timeunit else 0
  | empty => 0

/-- The member `reset()`. -/
def reset (sw : Stopwatch) (master : Bool) : Stopwatch :=
  match sw with
  | primary w c => if master then primary w.reset c.reset else primary w c
  | empty => empty

/-- A call of `start()`, `stop()` or `reset()` on a `Stopwatch`, with the readings of
the wall clock and of the CPU clock. -/
inductive Call where
  | start (wall_now cpu_now : Nat)
  | stop (wall_now cpu_now : Nat)
  | reset
  deriving DecidableEq, Repr

/-- One call applied to a `Stopwatch`. -/
def Call.apply (master : Bool) (sw : Stopwatch) : Call → Stopwatch
  | Call.start w c => sw.start master w c
  | Call.stop w c => sw.stop master w c
  | Call.reset => sw.reset master

end Stopwatch

/-! ## Theorems: `SparseNodeArray` -/

namespace SparseNodeArray

theorem nodes_add_local_node (a : SparseNodeArray) (n : Node) :
    (a.add_local_node n).nodes_ = a.nodes_ ++ [entry_of n] := rfl

theorem nodes_update_max_gid (a : SparseNodeArray) (g : Nat) :
    (a.update_max_gid g).nodes_ = a.nodes_ := by
  unfold update_max_gid
  split <;> rfl

theorem bounds_ok_empty : bounds_ok empty := by
  intro e he
  simp [empty] at he

theorem bounds_ok_clear (a : SparseNodeArray) : bounds_ok a.clear := by
  intro e he
  simp [clear] at he

theorem bounds_ok_add_local_node (a : SparseNodeArray) (n : Node) (h : bounds_ok a) :
    bounds_ok (a.add_local_node n) := by
  intro e he
  rw [nodes_add_local_node, List.mem_append, List.mem_singleton] at he
  by_cases hl : a.nodes_.length = 0
  · have hnil : a.nodes_ = [] := List.length_eq_zero.mp hl
    rcases he with he | he
    · simp [hnil] at he
    · subst he
      simp [add_local_node, hl, entry_of]
  · rcases he with he | he
    · obtain ⟨h1, h2, h3⟩ := h e he
      simp only [add_local_node, hl, if_false]
      refine ⟨?_, ?_, h3⟩
      · exact le_trans (min_le_left _ _) h1
      · exact le_trans h2 (le_max_left _ _)
    · subst he
      simp [add_local_node, hl, entry_of]

theorem bounds_ok_update_max_gid (a : SparseNodeArray) (g : Nat) (h : bounds_ok a) :
    bounds_ok (a.update_max_gid g) := by
  intro e he
  rw [nodes_update_max_gid] at he
  obtain ⟨h1, h2, h3⟩ := h e he
  unfold update_max_gid
  split
  · exact ⟨h1, by simp only; omega, h3⟩
  · exact ⟨h1, h2, h3⟩

theorem bounds_ok_apply (a : SparseNodeArray) (op : Op) (h : bounds_ok a) :
    bounds_ok (Op.apply a op) := by
  cases op with
  | add_local_node n => exact bounds_ok_add_local_node a n h
  | update_max_gid g => exact bounds_ok_update_max_gid a g h
  | clear => exact bounds_ok_clear a

theorem bounds_ok_foldl (ops : List Op) (a : SparseNodeArray) (h : bounds_ok a) :
    bounds_ok (ops.foldl Op.apply a) := by
  induction ops generalizing a with
  | nil => exact h
  | cons op rest ih => exact ih _ (bounds_ok_apply a op h)

theorem bounds_ok_run (ops : List Op) : bounds_ok (run ops) :=
  bounds_ok_foldl ops empty bounds_ok_empty

theorem add_all_eq_run (ns : List Node) : add_all ns = run (ns.map Op.add_local_node) := by
  unfold add_all run
  rw [List.foldl_map]
  rfl

theorem nodes_foldl_add (ns : List Node) (a : SparseNodeArray) :
    (ns.foldl add_local_node a).nodes_ = a.nodes_ ++ ns.map entry_of := by
  induction ns generalizing a with
  | nil => simp
  | cons n rest ih =>
    rw [List.foldl_cons, ih, nodes_add_local_node]
    simp

theorem nodes_add_all (ns : List Node) : (add_all ns).nodes_ = ns.map entry_of := by
  unfold add_all
  rw [nodes_foldl_add]
  rfl

/-- The scan finds an entry with the target GID when every entry before it, from the
start of the scan on, has a smaller GID. -/
theorem scan_right_hit (g : Nat) (l : List NodeEntry) (i j : Nat) (hj : j < l.length)
    (hlt : ∀ m (hm : m < j), (l.get ⟨m, lt_trans hm hj⟩).gid_ < g)
    (heq : (l.get ⟨j, hj⟩).gid_ = g) :
    scan_right g l i = some (i + j, (l.get ⟨j, hj⟩).node_) := by
  induction l generalizing i j with
  | nil => simp at hj
  | cons e rest ih =>
    cases j with
    | zero =>
      simp only [List.get_eq_getElem, List.getElem_cons_zero] at heq
      simp [scan_right, heq]
    | succ j =>
      have h0 : e.gid_ < g := by
        have := hlt 0 (Nat.succ_pos j)
        simpa using this
      have hj2 : j < rest.length := by simpa using hj
      have hrec := ih (i + 1) j hj2
        (fun m hm => by
          have := hlt (m + 1) (Nat.succ_lt_succ hm)
          simpa using this)
        (by simpa using heq)
      simp only [scan_right, Nat.ne_of_lt h0, h0, if_true, if_false]
      rw [hrec]
      simp [Nat.add_assoc, Nat.add_comm 1 j]

theorem find_by_gid_of_added (ns : List Node) (k : Nat) (hk : k < ns.length)
    (hinc : gid_increasing ns)
    (hest : (add_all ns).estimate_index (ns.get ⟨k, hk⟩).gid ≤ k) :
    (add_all ns).find_by_gid (ns.get ⟨k, hk⟩).gid = some (k, ns.get ⟨k, hk⟩) := by
  have hnodes := nodes_add_all ns
  have hlen : (add_all ns).nodes_.length = ns.length := by rw [hnodes, List.length_map]
  have hmem : entry_of (ns.get ⟨k, hk⟩) ∈ (add_all ns).nodes_ := by
    rw [hnodes]
    exact List.mem_map_of_mem _ (List.get_mem ns k hk)
  have hb : bounds_ok (add_all ns) := by
    rw [add_all_eq_run]
    exact bounds_ok_run _
  obtain ⟨h1, h2, -⟩ := hb _ hmem
  have hpair := List.pairwise_iff_getElem.mp hinc
  unfold find_by_gid
  rw [if_neg (by
    rw [hlen]
    simp only [entry_of] at h1 h2
    omega)]
  generalize hi : (add_all ns).estimate_index (ns.get ⟨k, hk⟩).gid = i at hest
  have hjl : k - i < ((add_all ns).nodes_.drop i).length := by
    rw [List.length_drop, hlen]
    omega
  have hget : ∀ m (hm : m < ((add_all ns).nodes_.drop i).length),
      ((add_all ns).nodes_.drop i).get ⟨m, hm⟩
        = entry_of (ns.get ⟨i + m, by rw [List.length_drop, hlen] at hm; omega⟩) := by
    intro m hm
    simp only [List.get_eq_getElem, List.getElem_drop, hnodes, List.getElem_map]
  have hscan := scan_right_hit (ns.get ⟨k, hk⟩).gid ((add_all ns).nodes_.drop i) i (k - i) hjl
    (by
      intro m hm
      rw [hget]
      simp only [entry_of, List.get_eq_getElem]
      exact hpair (i + m) k _ hk (by omega))
    (by
      rw [hget]
      simp only [entry_of, List.get_eq_getElem]
      congr 2
      omega)
  rw [hscan, hget]
  simp only [entry_of, List.get_eq_getElem]
  congr 2
  · omega
  · congr 1
    omega

theorem nodes_clear (a : SparseNodeArray) : a.clear.nodes_ = [] := rfl

theorem nodes_foldl_apply (ops : List Op) (a : SparseNodeArray) (acc : List Node)
    (h : a.nodes_ = acc.map entry_of) :
    (ops.foldl Op.apply a).nodes_ = (ops.foldl Op.held acc).map entry_of := by
  induction ops generalizing a acc with
  | nil => exact h
  | cons op rest ih =>
    rw [List.foldl_cons, List.foldl_cons]
    apply ih
    cases op with
    | add_local_node n => simp [Op.apply, Op.held, nodes_add_local_node, h]
    | update_max_gid g => simp [Op.apply, Op.held, nodes_update_max_gid, h]
    | clear => simp [Op.apply, Op.held, nodes_clear]

theorem nodes_run (ops : List Op) : (run ops).nodes_ = (local_nodes ops).map entry_of :=
  nodes_foldl_apply ops empty [] rfl

/-- A scan that starts at position `i` and returns position `j` has `i ≤ j`, and the
entry `j - i` places into the scanned part carries the target GID and the returned
handle. -/
theorem scan_right_sound (g : Nat) (l : List NodeEntry) (i j : Nat) (n : Node)
    (h : scan_right g l i = some (j, n)) :
    i ≤ j ∧ ∃ hj : j - i < l.length,
      (l.get ⟨j - i, hj⟩).gid_ = g ∧ (l.get ⟨j - i, hj⟩).node_ = n := by
  induction l generalizing i with
  | nil => simp [scan_right] at h
  | cons e rest ih =>
    unfold scan_right at h
    by_cases he : e.gid_ = g
    · rw [if_pos he] at h
      simp only [Option.some.injEq, Prod.mk.injEq] at h
      obtain ⟨hij, hn⟩ := h
      subst hij
      exact ⟨le_refl _, by simp, by simpa using he, by simpa using hn⟩
    · rw [if_neg he] at h
      by_cases hlt : e.gid_ < g
      · rw [if_pos hlt] at h
        obtain ⟨hle, hj, h1, h2⟩ := ih (i + 1) h
        have hji : j - i = (j - (i + 1)) + 1 := by omega
        refine ⟨by omega, by simp only [List.length_cons]; omega, ?_, ?_⟩
        · simp only [List.get_eq_getElem, hji, List.getElem_cons_succ]
          simpa using h1
        · simp only [List.get_eq_getElem, hji, List.getElem_cons_succ]
          simpa using h2
      · rw [if_neg hlt] at h
        exact absurd h (by simp)

/-- Whatever `get_node_by_gid` returns is the handle of an entry of the registry whose
stored GID is the requested one. -/
theorem get_node_by_gid_sound (a : SparseNodeArray) (g : Nat) (n : Node)
    (h : a.get_node_by_gid g = some n) :
    ∃ e ∈ a.nodes_, e.gid_ = g ∧ e.node_ = n := by
  unfold get_node_by_gid at h
  rw [Option.map_eq_some'] at h
  obtain ⟨⟨j, n1⟩, hf, hn⟩ := h
  simp only at hn
  subst hn
  unfold find_by_gid at hf
  split at hf
  · exact absurd hf (by simp)
  · obtain ⟨-, hj, h1, h2⟩ := scan_right_sound g _ _ j n1 hf
    exact ⟨_, List.mem_of_mem_drop (List.get_mem _ _ hj), h1, h2⟩

/-- C2: in every registry state reached from the empty registry by `add_local_node`,
`update_max_gid` (and `clear`) calls, `get_node_by_gid( g )` returns null for every GID
`g` that is not the GID of a node added (since the last `clear`), in particular for
every such `g <= max_gid`; and a non-null result is always the handle of an entry whose
stored GID equals `g`, which is a node that was added. -/
theorem C2_get_node_by_gid_not_added (ops : List Op) :
    (∀ g, g ∉ (local_nodes ops).map Node.gid → (run ops).get_node_by_gid g = none) ∧
    (∀ g n, (run ops).get_node_by_gid g = some n →
      n ∈ local_nodes ops ∧ n.gid = g ∧
        ∃ e ∈ (run ops).nodes_, e.gid_ = g ∧ e.node_ = n) := by
  have key : ∀ g n, (run ops).get_node_by_gid g = some n →
      n ∈ local_nodes ops ∧ n.gid = g ∧
        ∃ e ∈ (run ops).nodes_, e.gid_ = g ∧ e.node_ = n := by
    intro g n h
    obtain ⟨e, he, hg, hn⟩ := get_node_by_gid_sound _ g n h
    have he2 := he
    rw [nodes_run, List.mem_map] at he2
    obtain ⟨m, hm, hme⟩ := he2
    subst hme
    simp only [entry_of] at hg hn
    subst hn
    exact ⟨hm, hg, _, he, hg, rfl⟩
  refine ⟨?_, key⟩
  intro g hg
  cases hres : (run ops).get_node_by_gid g with
  | none => rfl
  | some n =>
    obtain ⟨hm, hgid, -⟩ := key g n hres
    exact absurd (List.mem_map.mpr ⟨n, hm, hgid⟩) hg

/-- Witness of C2: after adding GIDs `[0, 4, 8, 12, 16]`, GID `10` is not added, is at
most `max_gid = 16`, and `get_node_by_gid( 10 )` returns null. -/
theorem C2_get_node_by_gid_not_added_witness :
    10 ∉ (local_nodes (scenario_nodes.map Op.add_local_node)).map Node.gid ∧
      10 ≤ (run (scenario_nodes.map Op.add_local_node)).get_max_gid ∧
      (run (scenario_nodes.map Op.add_local_node)).get_node_by_gid 10 = none :=
  ⟨by decide, by decide,
    (C2_get_node_by_gid_not_added (scenario_nodes.map Op.add_local_node)).1 10 (by decide)⟩

/-- C3: for every registry state, after `clear()` the registry is observably empty:
`size() == 0`, `get_max_gid() == 0`, `local_min_gid == local_max_gid == 0`,
`scale == 1`, and `get_node_by_gid( g )` returns null for every GID `g`. -/
theorem C3_clear_observably_empty (a : SparseNodeArray) :
    a.clear.size = 0 ∧ a.clear.get_max_gid = 0 ∧
      a.clear.local_min_gid_ = 0 ∧ a.clear.local_max_gid_ = 0 ∧
      a.clear.gid_idx_scale_ = 1 ∧
      ∀ g, a.clear.get_node_by_gid g = none := by
  refine ⟨rfl, rfl, rfl, rfl, rfl, ?_⟩
  intro g
  simp [get_node_by_gid, find_by_gid, clear]

/-- C7: `get_node_by_index( idx )` succeeds if and only if `idx < size()`; when
`idx >= size()` it is a fatal assertion failure (not a null result); when it succeeds
it returns the handle stored in entry `idx`, which in a registry built by
`add_local_node` calls is the `idx`-th node added (0-based, in insertion order). -/
theorem C7_get_node_by_index (a : SparseNodeArray) (ops : List Op) (idx : Nat) :
    ((∃ n, a.get_node_by_index idx = Except.ok n) ↔ idx < a.size) ∧
    (¬ idx < a.size → a.get_node_by_index idx = Except.error Fatal.assertion_failed) ∧
    (∀ h : idx < a.nodes_.length,
      a.get_node_by_index idx = Except.ok (a.nodes_.get ⟨idx, h⟩).node_) ∧
    (∀ h : idx < (local_nodes ops).length,
      (run ops).get_node_by_index idx = Except.ok ((local_nodes ops).get ⟨idx, h⟩)) := by
  refine ⟨?_, ?_, ?_, ?_⟩
  · unfold get_node_by_index size
    by_cases h : idx < a.nodes_.length
    · simp [h]
    · simp [h]
  · intro h
    unfold get_node_by_index
    unfold size at h
    rw [dif_neg h]
  · intro h
    unfold get_node_by_index
    rw [dif_pos h]
  · intro h
    have hlen : idx < (run ops).nodes_.length := by
      rw [nodes_run, List.length_map]
      exact h
    unfold get_node_by_index
    rw [dif_pos hlen]
    simp only [List.get_eq_getElem, nodes_run, List.getElem_map, entry_of]

/-- Witness of C7: with GIDs `[0, 4, 8, 12, 16]` added, index 2 gives the third node
added and index 5 (the size) is a fatal assertion failure. -/
theorem C7_get_node_by_index_witness :
    (run (scenario_nodes.map Op.add_local_node)).get_node_by_index 2
        = Except.ok ⟨102, 8⟩ ∧
      (run (scenario_nodes.map Op.add_local_node)).get_node_by_index 5
        = Except.error Fatal.assertion_failed :=
  ⟨(C7_get_node_by_index (run (scenario_nodes.map Op.add_local_node))
      (scenario_nodes.map Op.add_local_node) 2).2.2.2 (by decide),
    (C7_get_node_by_index (run (scenario_nodes.map Op.add_local_node))
      (scenario_nodes.map Op.add_local_node) 5).2.1 (by
        rw [size, nodes_run]
        decide)⟩

end SparseNodeArray

/-! ## Theorems: `ConnectionManager` -/

namespace Dictionary

theorem bindings_insert_of_not_known (d : Dictionary) (name : String) (id : Nat)
    (h : d.known name = false) :
    (d.insert name id).bindings = d.bindings ++ [(name, id)] := by
  simp [insert, h]

theorem known_insert_of_not_known (d : Dictionary) (name name2 : String) (id : Nat)
    (h : d.known name = false) :
    (d.insert name id).known name2 = (d.known name2 || name == name2) := by
  unfold known at *
  rw [show (d.insert name id).bindings = d.bindings ++ [(name, id)] from
    bindings_insert_of_not_known d name id h]
  simp [List.any_append]

theorem lookup_insert_self (d : Dictionary) (name : String) (id : Nat)
    (h : d.known name = false) :
    (d.insert name id).lookup name = some id := by
  unfold lookup
  rw [bindings_insert_of_not_known d name id h, List.find?_append]
  have hnone : d.bindings.find? (fun b => b.1 == name) = none := by
    rw [List.find?_eq_none]
    unfold known at h
    rw [List.any_eq_false] at h
    exact h
  rw [hnone]
  simp

theorem lookup_insert_of_known (d : Dictionary) (name name2 : String) (id : Nat)
    (h : d.known name = false) (h2 : d.known name2 = true) :
    (d.insert name id).lookup name2 = d.lookup name2 := by
  unfold lookup
  rw [bindings_insert_of_not_known d name id h, List.find?_append]
  unfold known at h2
  rw [List.any_eq_true] at h2
  obtain ⟨b, hb, hbn⟩ := h2
  cases hf : d.bindings.find? (fun b => b.1 == name2) with
  | none =>
    rw [List.find?_eq_none] at hf
    exact absurd hbn (hf b hb)
  | some x => simp

end Dictionary

namespace ConnectionManager

/-- What a successful `register_conn_builder` call does. -/
theorem register_conn_builder_ok (m : ConnectionManager) (cb : ConnBuilder) (name : String)
    (h : m.connruledict_.known name = false) :
    m.register_conn_builder cb name =
      (Except.ok (),
        { m with
          connbuilder_factories_ := m.connbuilder_factories_ ++ [{ builder := cb }],
          connruledict_ := m.connruledict_.insert name m.connbuilder_factories_.length }) := by
  simp [register_conn_builder, h]

/-- What a failing `register_conn_builder` call does. -/
theorem register_conn_builder_error (m : ConnectionManager) (cb : ConnBuilder) (name : String)
    (h : m.connruledict_.known name = true) :
    m.register_conn_builder cb name = (Except.error Fatal.assertion_failed, m) := by
  simp [register_conn_builder, h]

theorem known_of_register_conn_builder_ok (m : ConnectionManager) (cb : ConnBuilder)
    (name : String) (h : (m.register_conn_builder cb name).1 = Except.ok ()) :
    m.connruledict_.known name = false := by
  cases hk : m.connruledict_.known name with
  | false => rfl
  | true =>
    rw [register_conn_builder_error m cb name hk] at h
    exact absurd h (by simp)

theorem register_all_cons_ok (m : ConnectionManager) (cb : ConnBuilder) (name : String)
    (rest : List (String × ConnBuilder)) (h : m.connruledict_.known name = false) :
    m.register_all ((name, cb) :: rest) = (m.registered cb name).register_all rest := by
  rw [register_all, register_conn_builder_ok m cb name h]
  rfl

theorem register_all_cons_error (m : ConnectionManager) (cb : ConnBuilder) (name : String)
    (rest : List (String × ConnBuilder)) (h : m.connruledict_.known name = true) :
    m.register_all ((name, cb) :: rest) = (Except.error Fatal.assertion_failed, m) := by
  rw [register_all, register_conn_builder_error m cb name h]

/-- Registering names that are pairwise distinct and not yet known succeeds. -/
theorem register_all_ok (l : List (String × ConnBuilder)) (m : ConnectionManager)
    (hd : (l.map Prod.fst).Nodup) (hn : ∀ p ∈ l, m.connruledict_.known p.1 = false) :
    (m.register_all l).1 = Except.ok () := by
  induction l generalizing m with
  | nil => rfl
  | cons p rest ih =>
    obtain ⟨name, cb⟩ := p
    have hk : m.connruledict_.known name = false := hn (name, cb) (List.mem_cons_self _ _)
    rw [register_all_cons_ok m cb name rest hk]
    rw [List.map_cons, List.nodup_cons] at hd
    apply ih _ hd.2
    intro q hq
    have hq1 : m.connruledict_.known q.1 = false := hn q (List.mem_cons_of_mem _ hq)
    have hne : name ≠ q.1 := by
      intro he
      have hmem : q.1 ∈ rest.map Prod.fst := List.mem_map_of_mem Prod.fst hq
      rw [← he] at hmem
      exact hd.1 hmem
    simp only [registered]
    rw [Dictionary.known_insert_of_not_known _ _ _ _ hk, hq1]
    simp [hne]

/-- The effect of a successful sequence of registrations on the factory sequence and on
the name table. -/
theorem register_all_effect (l : List (String × ConnBuilder)) (m : ConnectionManager)
    (hok : (m.register_all l).1 = Except.ok ()) :
    (m.register_all l).2.connbuilder_factories_
        = m.connbuilder_factories_ ++ l.map (fun p => { builder := p.2 }) ∧
    (m.register_all l).2.connruledict_.bindings.map Prod.fst
        = m.connruledict_.bindings.map Prod.fst ++ l.map Prod.fst ∧
    (m.register_all l).2.connruledict_.bindings.map Prod.snd
        = m.connruledict_.bindings.map Prod.snd
          ++ List.range' m.connbuilder_factories_.length l.length ∧
    (∀ name, m.connruledict_.known name = true →
      (m.register_all l).2.connruledict_.known name = true ∧
      (m.register_all l).2.connruledict_.lookup name = m.connruledict_.lookup name) ∧
    (∀ k (hk : k < l.length),
      (m.register_all l).2.connruledict_.lookup (l.get ⟨k, hk⟩).1
        = some (m.connbuilder_factories_.length + k)) := by
  induction l generalizing m with
  | nil =>
    refine ⟨by simp [register_all], by simp [register_all], by simp [register_all],
      fun name h => ⟨h, rfl⟩, ?_⟩
    intro k hk
    simp at hk
  | cons p rest ih =>
    obtain ⟨name, cb⟩ := p
    have hk : m.connruledict_.known name = false := by
      cases hkn : m.connruledict_.known name with
      | false => rfl
      | true =>
        rw [register_all_cons_error m cb name rest hkn] at hok
        exact absurd hok (by simp)
    rw [register_all_cons_ok m cb name rest hk] at hok ⊢
    obtain ⟨h1, h2, h3, h4, h5⟩ := ih (m.registered cb name) hok
    have hb := Dictionary.bindings_insert_of_not_known m.connruledict_ name
      m.connbuilder_factories_.length hk
    have hself : (m.registered cb name).connruledict_.known name = true := by
      simp only [registered]
      rw [Dictionary.known_insert_of_not_known _ _ _ _ hk]
      simp
    have hlook : (m.registered cb name).connruledict_.lookup name
        = some m.connbuilder_factories_.length := by
      simp only [registered]
      exact Dictionary.lookup_insert_self _ _ _ hk
    refine ⟨?_, ?_, ?_, ?_, ?_⟩
    · rw [h1]
      simp [registered]
    · rw [h2]
      simp [registered, hb]
    · rw [h3]
      simp [registered, hb, List.range'_succ]
    · intro name2 hk2
      have hk3 : (m.registered cb name).connruledict_.known name2 = true := by
        simp only [registered]
        rw [Dictionary.known_insert_of_not_known _ _ _ _ hk, hk2]
        rfl
      obtain ⟨h6, h7⟩ := h4 name2 hk3
      refine ⟨h6, ?_⟩
      rw [h7]
      simp only [registered]
      exact Dictionary.lookup_insert_of_known _ _ _ _ hk hk2
    · intro k hkl
      cases k with
      | zero =>
        simp only [List.get_eq_getElem, List.getElem_cons_zero, Nat.add_zero]
        rw [(h4 name hself).2, hlook]
      | succ k =>
        have hkr : k < rest.length := by simpa using hkl
        have := h5 k hkr
        simp only [List.get_eq_getElem, List.getElem_cons_succ] at this ⊢
        rw [this]
        simp [registered]
        omega

/-- C4: `register_conn_builder( name )` fails (fatal assertion) if and only if `name` is
already present in the bipartite rule-name table; on failure the manager, hence the
name table and the factory sequence, is unchanged; on success exactly one factory is
appended to the factory sequence and exactly one binding, of `name` to the previous
number of factories, is added to the name table. -/
theorem C4_register_conn_builder (m : ConnectionManager) (cb : ConnBuilder) (name : String) :
    ((m.register_conn_builder cb name).1 = Except.error Fatal.assertion_failed
      ↔ m.connruledict_.known name = true) ∧
    (m.connruledict_.known name = true → (m.register_conn_builder cb name).2 = m) ∧
    (m.connruledict_.known name = false →
      (m.register_conn_builder cb name).1 = Except.ok () ∧
      (m.register_conn_builder cb name).2.connbuilder_factories_
        = m.connbuilder_factories_ ++ [{ builder := cb }] ∧
      (m.register_conn_builder cb name).2.connruledict_.bindings
        = m.connruledict_.bindings ++ [(name, m.connbuilder_factories_.length)]) := by
  refine ⟨?_, ?_, ?_⟩
  · cases hk : m.connruledict_.known name with
    | false =>
      rw [register_conn_builder_ok m cb name hk]
      simp
    | true =>
      rw [register_conn_builder_error m cb name hk]
      simp
  · intro hk
    rw [register_conn_builder_error m cb name hk]
  · intro hk
    rw [register_conn_builder_ok m cb name hk]
    exact ⟨rfl, rfl, Dictionary.bindings_insert_of_not_known _ _ _ hk⟩

/-- Witness of C4: with `"one_to_one"` registered, registering `"one_to_one"` again
leaves the manager as it is, and registering `"all_to_all"` appends one factory and
binds the name to id 1. -/
theorem C4_register_conn_builder_witness :
    (((empty.register_conn_builder ⟨1⟩ "one_to_one").2.register_conn_builder ⟨2⟩
        "one_to_one").2 = (empty.register_conn_builder ⟨1⟩ "one_to_one").2) ∧
    (((empty.register_conn_builder ⟨1⟩ "one_to_one").2.register_conn_builder ⟨2⟩
        "all_to_all").1 = Except.ok () ∧
      ((empty.register_conn_builder ⟨1⟩ "one_to_one").2.register_conn_builder ⟨2⟩
        "all_to_all").2.connbuilder_factories_
        = (empty.register_conn_builder ⟨1⟩ "one_to_one").2.connbuilder_factories_
          ++ [{ builder := ⟨2⟩ }] ∧
      ((empty.register_conn_builder ⟨1⟩ "one_to_one").2.register_conn_builder ⟨2⟩
        "all_to_all").2.connruledict_.bindings
        = (empty.register_conn_builder ⟨1⟩ "one_to_one").2.connruledict_.bindings
          ++ [("all_to_all",
            (empty.register_conn_builder ⟨1⟩ "one_to_one").2.connbuilder_factories_.length)]) :=
  ⟨(C4_register_conn_builder (empty.register_conn_builder ⟨1⟩ "one_to_one").2 ⟨2⟩
      "one_to_one").2.1 (by decide),
    (C4_register_conn_builder (empty.register_conn_builder ⟨1⟩ "one_to_one").2 ⟨2⟩
      "all_to_all").2.2 (by decide)⟩

/-- C5: for every list of `N` pairwise distinct names registered in order into an empty
rule registry, all registrations succeed, the `k`-th registered name (0-based) is bound
to id `k`, the names bound are the registered ones in registration order, the ids bound
are exactly `0 .. N-1` in that order (so pairwise distinct and each a valid index into
the factory sequence), and the factory sequence has length `N`. -/
theorem C5_register_ids_dense (l : List (String × ConnBuilder))
    (hd : (l.map Prod.fst).Nodup) :
    (empty.register_all l).1 = Except.ok () ∧
    (empty.register_all l).2.connbuilder_factories_.length = l.length ∧
    (empty.register_all l).2.connruledict_.bindings.map Prod.fst = l.map Prod.fst ∧
    (empty.register_all l).2.connruledict_.bindings.map Prod.snd = List.range l.length ∧
    (∀ k (hk : k < l.length),
      (empty.register_all l).2.connruledict_.lookup (l.get ⟨k, hk⟩).1 = some k) := by
  have hok : (empty.register_all l).1 = Except.ok () :=
    register_all_ok l empty hd (fun p _ => rfl)
  obtain ⟨h1, h2, h3, -, h5⟩ := register_all_effect l empty hok
  refine ⟨hok, ?_, ?_, ?_, ?_⟩
  · rw [h1]
    simp [empty]
  · rw [h2]
    simp [empty, Dictionary.empty]
  · rw [h3, List.range_eq_range']
    simp [empty, Dictionary.empty]
  · intro k hk
    rw [h5 k hk]
    simp [empty]

/-- Witness of C5: `"one_to_one"` and `"all_to_all"` registered in this order get the
ids 0 and 1, and there are two factories. -/
theorem C5_register_ids_dense_witness :
    (scenario_rules.map Prod.fst).Nodup ∧
    (empty.register_all scenario_rules).1 = Except.ok () ∧
    (empty.register_all scenario_rules).2.connbuilder_factories_.length = 2 ∧
    (empty.register_all scenario_rules).2.connruledict_.bindings.map Prod.snd = [0, 1] ∧
    (empty.register_all scenario_rules).2.connruledict_.lookup "one_to_one" = some 0 ∧
    (empty.register_all scenario_rules).2.connruledict_.lookup "all_to_all" = some 1 :=
  ⟨by decide,
    (C5_register_ids_dense scenario_rules (by decide)).1,
    (C5_register_ids_dense scenario_rules (by decide)).2.1,
    (C5_register_ids_dense scenario_rules (by decide)).2.2.2.1,
    (C5_register_ids_dense scenario_rules (by decide)).2.2.2.2 0 (by decide),
    (C5_register_ids_dense scenario_rules (by decide)).2.2.2.2 1 (by decide)⟩

/-- C6: after any sequence of successful registrations into an empty registry, every
registered name resolves to the factory constructed for the strategy type given in the
registration call of that name; and after any further successful registrations the name
is still bound to the same id, the factory stored at that id is still the same, and the
name still resolves to the factory of the strategy type registered under it. -/
theorem C6_resolve_registered (l l2 : List (String × ConnBuilder))
    (hok : (empty.register_all l).1 = Except.ok ())
    (hok2 : ((empty.register_all l).2.register_all l2).1 = Except.ok ()) :
    ∀ k (hk : k < l.length),
      (empty.register_all l).2.connruledict_.lookup (l.get ⟨k, hk⟩).1 = some k ∧
      (empty.register_all l).2.connbuilder_factories_[k]?
        = some { builder := (l.get ⟨k, hk⟩).2 } ∧
      (empty.register_all l).2.resolve (l.get ⟨k, hk⟩).1
        = some { builder := (l.get ⟨k, hk⟩).2 } ∧
      ((empty.register_all l).2.register_all l2).2.connruledict_.lookup (l.get ⟨k, hk⟩).1
        = some k ∧
      ((empty.register_all l).2.register_all l2).2.connbuilder_factories_[k]?
        = some { builder := (l.get ⟨k, hk⟩).2 } ∧
      ((empty.register_all l).2.register_all l2).2.resolve (l.get ⟨k, hk⟩).1
        = some { builder := (l.get ⟨k, hk⟩).2 } := by
  intro k hk
  obtain ⟨h1, -, -, -, h5⟩ := register_all_effect l empty hok
  obtain ⟨g1, -, -, g4, -⟩ := register_all_effect l2 (empty.register_all l).2 hok2
  have hlook : (empty.register_all l).2.connruledict_.lookup (l.get ⟨k, hk⟩).1 = some k := by
    rw [h5 k hk]
    simp [empty]
  have hfac : (empty.register_all l).2.connbuilder_factories_[k]?
      = some { builder := (l.get ⟨k, hk⟩).2 } := by
    rw [h1]
    simp [empty, List.getElem?_eq_getElem hk]
  have hknown : (empty.register_all l).2.connruledict_.known (l.get ⟨k, hk⟩).1 = true := by
    unfold Dictionary.lookup at hlook
    unfold Dictionary.known
    cases hf : (empty.register_all l).2.connruledict_.bindings.find?
        (fun b => b.1 == (l.get ⟨k, hk⟩).1) with
    | none =>
      rw [hf] at hlook
      exact absurd hlook (by simp)
    | some b =>
      rw [List.any_eq_true]
      have hb := List.find?_some hf
      exact ⟨b, List.mem_of_find?_eq_some hf, hb⟩
  have hlook2 := (g4 _ hknown).2
  rw [hlook] at hlook2
  have hfac2 : ((empty.register_all l).2.register_all l2).2.connbuilder_factories_[k]?
      = some { builder := (l.get ⟨k, hk⟩).2 } := by
    rw [g1, List.getElem?_append_left, hfac]
    rw [h1]
    simp [empty, hk]
  refine ⟨hlook, hfac, ?_, hlook2, hfac2, ?_⟩
  · unfold resolve
    rw [hlook]
    exact hfac
  · unfold resolve
    rw [hlook2]
    exact hfac2

/-- Witness of C6: after registering `"one_to_one"` (strategy 1) and `"all_to_all"`
(strategy 2), and then also `"fixed_indegree"` (strategy 3), `"all_to_all"` resolves to
the factory of strategy 2. -/
theorem C6_resolve_registered_witness :
    (empty.register_all scenario_rules).2.resolve "all_to_all" = some { builder := ⟨2⟩ } ∧
    ((empty.register_all scenario_rules).2.register_all
      [("fixed_indegree", ⟨3⟩)]).2.resolve "all_to_all" = some { builder := ⟨2⟩ } :=
  ⟨(C6_resolve_registered scenario_rules [("fixed_indegree", ⟨3⟩)] rfl rfl
      1 (by decide)).2.2.1,
    (C6_resolve_registered scenario_rules [("fixed_indegree", ⟨3⟩)] rfl rfl
      1 (by decide)).2.2.2.2.2⟩

end ConnectionManager

/-! ## Theorems: `StopwatchBase` -/

namespace timers

theorem size_t_sub_of_le (a b : Nat) (h : b ≤ a) (ha : a < SIZE_T_MOD) :
    size_t_sub a b = a - b := by
  unfold size_t_sub
  unfold SIZE_T_MOD at *
  omega

theorem size_t_add_of_lt (a b : Nat) (h : a + b < SIZE_T_MOD) : size_t_add a b = a + b := by
  unfold size_t_add
  exact Nat.mod_eq_of_lt h

namespace StopwatchBase

theorem run_once_eq (sw : StopwatchBase) (p : Nat × Nat) (h : sw._running = false) :
    sw.run_once p =
      { _beg := p.1, _end := p.2,
        _prev_elapsed := size_t_add sw._prev_elapsed (size_t_sub sw._end sw._beg),
        _running := false } := by
  simp [run_once, start, stop, isRunning, h]

theorem stopped_ok_reset (sw : StopwatchBase) : stopped_ok sw.reset := by
  simp [stopped_ok, reset, accumulated, SIZE_T_MOD]

/-- One measured run on a consistent stopped stopwatch adds the length of the run. -/
theorem run_once_ok (sw : StopwatchBase) (p : Nat × Nat) (hg : stopped_ok sw)
    (h1 : sw._end ≤ p.1) (h2 : p.1 ≤ p.2) (h3 : p.2 < SIZE_T_MOD) :
    stopped_ok (sw.run_once p) ∧ (sw.run_once p)._end = p.2 ∧
      (sw.run_once p).accumulated = sw.accumulated + (p.2 - p.1) := by
  obtain ⟨hr, hbe, hend, hacc⟩ := hg
  rw [run_once_eq sw p hr]
  unfold accumulated at hacc
  have hsub : size_t_sub sw._end sw._beg = sw._end - sw._beg :=
    size_t_sub_of_le _ _ hbe hend
  have hadd : size_t_add sw._prev_elapsed (sw._end - sw._beg)
      = sw._prev_elapsed + (sw._end - sw._beg) :=
    size_t_add_of_lt _ _ (lt_of_le_of_lt hacc hend)
  rw [hsub, hadd]
  refine ⟨⟨rfl, h2, h3, ?_⟩, rfl, rfl⟩
  simp only [accumulated]
  omega

/-- An alternating sequence of runs on a consistent stopped stopwatch adds the lengths
of the runs. -/
theorem run_all_ok (l : List (Nat × Nat)) (sw : StopwatchBase) (hg : stopped_ok sw)
    (hc : clock_ok sw._end l) :
    stopped_ok (sw.run_all l) ∧ (sw.run_all l)._end = last_stop sw._end l ∧
      (sw.run_all l).accumulated = sw.accumulated + total l := by
  induction l generalizing sw with
  | nil => exact ⟨hg, rfl, rfl⟩
  | cons p rest ih =>
    obtain ⟨h1, h2, h3, h4⟩ := hc
    obtain ⟨g1, g2, g3⟩ := run_once_ok sw p hg h1 h2 h3
    rw [← g2] at h4
    obtain ⟨i1, i2, i3⟩ := ih (sw.run_once p) g1 h4
    refine ⟨i1, ?_, ?_⟩
    · show ((sw.run_once p).run_all rest)._end = _
      rw [i2, g2]
      rfl
    · show ((sw.run_once p).run_all rest).accumulated = _
      rw [i3, g3]
      simp [total]
      omega

/-- The elapsed time of a consistent stopped stopwatch is its accumulated time. -/
theorem time_elapsed_stopped (sw : StopwatchBase) (now : Nat) (hg : stopped_ok sw) :
    sw.time_elapsed now = sw.accumulated := by
  obtain ⟨hr, hbe, hend, hacc⟩ := hg
  unfold accumulated at *
  simp only [time_elapsed, isRunning, hr, Bool.false_eq_true, if_false]
  rw [size_t_sub_of_le _ _ hbe hend, size_t_add_of_lt _ _ (by omega)]
  omega

/-- Resuming a consistent stopped stopwatch at `s` and asking at `now`. -/
theorem time_elapsed_resumed (sw : StopwatchBase) (s now : Nat) (hg : stopped_ok sw)
    (h1 : sw._end ≤ s) (h2 : s ≤ now) (h3 : now < SIZE_T_MOD) :
    (sw.start s).isRunning = true ∧
      (sw.start s).time_elapsed now = sw.accumulated + (now - s) := by
  obtain ⟨hr, hbe, hend, hacc⟩ := hg
  unfold accumulated at *
  have hstart : sw.start s =
      { _beg := s, _end := s,
        _prev_elapsed := size_t_add sw._prev_elapsed (size_t_sub sw._end sw._beg),
        _running := true } := by
    simp [start, isRunning, hr]
  rw [hstart]
  refine ⟨rfl, ?_⟩
  simp only [time_elapsed, isRunning, if_true]
  rw [size_t_sub_of_le _ _ hbe hend, size_t_add_of_lt sw._prev_elapsed _ (by omega),
    size_t_sub_of_le _ _ h2 h3, size_t_add_of_lt _ _ (by omega)]
  omega

/-- C8: for a `StopwatchBase` starting from the reset state and a non-decreasing clock,
after any alternating sequence `start(t1), stop(t2), ..., start(t_{2n-1}), stop(t_{2n})`
`elapsed( unit )` equals the sum of the `t_{2k} - t_{2k-1}` divided by the unit; and if
the stopwatch is then started again at time `s` and queried at time `now >= s` while
running, `elapsed( unit )` equals that sum plus `now - s`, divided by the unit. -/
theorem C8_elapsed_accumulates (sw0 : StopwatchBase) (l : List (Nat × Nat))
    (timeunit : timeunit_t) (hclock : clock_ok 0 l) :
    (∀ now, (sw0.reset.run_all l).isRunning = false ∧
      (sw0.reset.run_all l).time_elapsed now = total l ∧
      (sw0.reset.run_all l).elapsed now timeunit
        = ((total l : Nat) : ℚ) / (timeunit.val : ℚ)) ∧
    (∀ s now, last_stop 0 l ≤ s → s ≤ now → now < SIZE_T_MOD →
      ((sw0.reset.run_all l).start s).isRunning = true ∧
      ((sw0.reset.run_all l).start s).time_elapsed now = total l + (now - s) ∧
      ((sw0.reset.run_all l).start s).elapsed now timeunit
        = ((total l + (now - s) : Nat) : ℚ) / (timeunit.val : ℚ)) := by
  obtain ⟨h1, h2, h3⟩ := run_all_ok l sw0.reset (stopped_ok_reset sw0) hclock
  have hacc : (sw0.reset.run_all l).accumulated = total l := by
    rw [h3]
    simp [accumulated, reset]
  have hend : (sw0.reset.run_all l)._end = last_stop 0 l := h2
  constructor
  · intro now
    have ht := time_elapsed_stopped _ now h1
    rw [hacc] at ht
    refine ⟨h1.1, ht, ?_⟩
    unfold elapsed
    rw [ht]
  · intro s now hs hnow hlt
    rw [← hend] at hs
    obtain ⟨g1, g2⟩ := time_elapsed_resumed _ s now h1 hs hnow hlt
    rw [hacc] at g2
    refine ⟨g1, g2, ?_⟩
    unfold elapsed
    rw [g2]

/-- Witness of C8: runs of 15.34 s and 11.22 s give 26.56 s; resumed at clock reading
`40 s` and asked `5.7 s` later, the stopwatch shows 32.26 s. -/
theorem C8_elapsed_accumulates_witness :
    clock_ok 0 example_runs ∧
    ((reset ⟨7, 3, 9, true⟩).run_all example_runs).elapsed 0 timeunit_t.SECONDS
      = 2656 / 100 ∧
    (((reset ⟨7, 3, 9, true⟩).run_all example_runs).start 40000000000).elapsed
      45700000000 timeunit_t.SECONDS = 3226 / 100 := by
  have hc : clock_ok 0 example_runs := by
    norm_num [clock_ok, example_runs, SIZE_T_MOD]
  have h := C8_elapsed_accumulates ⟨7, 3, 9, true⟩ example_runs timeunit_t.SECONDS hc
  refine ⟨hc, ?_, ?_⟩
  · rw [(h.1 0).2.2]
    norm_num [total, example_runs, timeunit_t.val]
  · rw [(h.2 40000000000 45700000000 (by norm_num [last_stop, example_runs])
      (by norm_num) (by norm_num [SIZE_T_MOD])).2.2]
    norm_num [total, example_runs, timeunit_t.val]

/-- C9: a newly constructed `StopwatchBase`, and a `StopwatchBase` in any state after
`reset()`, is not running and has `elapsed( unit ) == 0` for every time unit; a
`start()` after `reset()` measures from 0: no previous measurement is left, and the
running stopwatch shows exactly the time since that `start()`. -/
theorem C9_reset_erases (sw uninitialised : StopwatchBase) (timeunit : timeunit_t) :
    (init uninitialised).isRunning = false ∧
    (∀ now, (init uninitialised).elapsed now timeunit = 0) ∧
    sw.reset.isRunning = false ∧
    (∀ now, sw.reset.elapsed now timeunit = 0) ∧
    (∀ s, (sw.reset.start s)._prev_elapsed = 0) ∧
    (∀ s now, s ≤ now → now < SIZE_T_MOD →
      (sw.reset.start s).time_elapsed now = now - s ∧
      (sw.reset.start s).elapsed now timeunit
        = ((now - s : Nat) : ℚ) / (timeunit.val : ℚ)) := by
  have hzero : ∀ (x : StopwatchBase) (now : Nat), x.reset.elapsed now timeunit = 0 := by
    intro x now
    simp [elapsed, time_elapsed, reset, isRunning, size_t_add, size_t_sub, SIZE_T_MOD]
  refine ⟨rfl, fun now => hzero uninitialised now, rfl, fun now => hzero sw now, ?_, ?_⟩
  · intro s
    simp [start, reset, isRunning, size_t_add, size_t_sub, SIZE_T_MOD]
  · intro s now hs hlt
    obtain ⟨-, g2⟩ := time_elapsed_resumed sw.reset s now (stopped_ok_reset sw)
      (Nat.zero_le s) hs hlt
    have g3 : (sw.reset.start s).time_elapsed now = now - s := by
      rw [g2]
      simp [accumulated, reset]
    refine ⟨g3, ?_⟩
    unfold elapsed
    rw [g3]

/-- Witness of C9: a stopwatch that had measured before is reset, started at clock
reading 2 s and asked at 7.7 s: it shows 5.7 s. -/
theorem C9_reset_erases_witness :
    ((reset ⟨7, 3, 9, true⟩).start 2000000000).elapsed 7700000000 timeunit_t.SECONDS
      = 57 / 10 := by
  rw [((C9_reset_erases ⟨7, 3, 9, true⟩ ⟨0, 0, 0, false⟩ timeunit_t.SECONDS).2.2.2.2.2
    2000000000 7700000000 (by norm_num) (by norm_num [SIZE_T_MOD])).2]
  norm_num [timeunit_t.val]

/-- C10: `start()` on a `StopwatchBase` that is already running, and `stop()` on one that
is already stopped, leave the whole stopwatch state (`_beg`, `_end`, `_prev_elapsed`,
`_running`) unchanged whatever the current clock value; after `start()` `isRunning()`
is true and after `stop()` `isRunning()` is false. -/
theorem C10_start_stop_idempotent (sw : StopwatchBase) (now : Nat) :
    (sw.isRunning = true → sw.start now = sw) ∧
    (sw.isRunning = false → sw.stop now = sw) ∧
    (sw.start now).isRunning = true ∧
    (sw.stop now).isRunning = false := by
  refine ⟨?_, ?_, ?_, ?_⟩
  · intro h
    simp [start, h]
  · intro h
    simp [stop, h]
  · cases h : sw._running with
    | true => simp [start, isRunning, h]
    | false => simp [start, isRunning, h]
  · cases h : sw._running with
    | true => simp [stop, isRunning, h]
    | false => simp [stop, isRunning, h]

/-- Witness of C10: a running stopwatch ignores `start()`, a stopped one ignores
`stop()`. -/
theorem C10_start_stop_idempotent_witness :
    (start ⟨5, 5, 2, true⟩ 9 = ⟨5, 5, 2, true⟩) ∧ (stop ⟨5, 8, 2, false⟩ 9 = ⟨5, 8, 2, false⟩) :=
  ⟨(C10_start_stop_idempotent ⟨5, 5, 2, true⟩ 9).1 rfl,
    (C10_start_stop_idempotent ⟨5, 8, 2, false⟩ 9).2.1 rfl⟩

end StopwatchBase

end timers

/-! ## Theorems: `SparseNodeArray`, scalar state -/

namespace SparseNodeArray

theorem scalars_ok_empty : scalars_ok empty := by
  simp [scalars_ok, empty, first_gid, last_gid]

theorem scalars_ok_clear (a : SparseNodeArray) : scalars_ok a.clear := by
  simp [scalars_ok, clear, first_gid, last_gid]

theorem scalars_ok_update_max_gid (a : SparseNodeArray) (g : Nat) (h : scalars_ok a) :
    scalars_ok (a.update_max_gid g) := by
  obtain ⟨h1, h2, h3, h4, h5⟩ := h
  unfold update_max_gid
  split
  · refine ⟨h1, h2, h3, ?_, h5⟩
    simp only
    omega
  · exact ⟨h1, h2, h3, h4, h5⟩

theorem first_gid_mem (a : SparseNodeArray) (h : a.nodes_ ≠ []) :
    ∃ e ∈ a.nodes_, e.gid_ = a.first_gid := by
  unfold first_gid
  cases hn : a.nodes_ with
  | nil => exact absurd hn h
  | cons e rest => exact ⟨e, List.mem_cons_self _ _, by simp⟩

theorem last_gid_mem (a : SparseNodeArray) (h : a.nodes_ ≠ []) :
    ∃ e ∈ a.nodes_, e.gid_ = a.last_gid := by
  unfold last_gid
  refine ⟨a.nodes_.getLast h, List.getLast_mem h, ?_⟩
  rw [List.getLast?_eq_getLast _ h]
  rfl

theorem scalars_ok_add_local_node (a : SparseNodeArray) (n : Node) (h : scalars_ok a)
    (hn : ∀ e ∈ a.nodes_, e.gid_ < n.gid) :
    scalars_ok (a.add_local_node n) := by
  obtain ⟨h1, h2, h3, h4, -⟩ := h
  have hne : a.nodes_ ++ [({ node_ := n, gid_ := n.gid } : NodeEntry)] ≠ [] := by simp
  have hpair : (a.nodes_ ++ [({ node_ := n, gid_ := n.gid } : NodeEntry)]).Pairwise
      (fun e f => e.gid_ < f.gid_) := by
    rw [List.pairwise_append]
    refine ⟨h1, List.pairwise_singleton _ _, ?_⟩
    intro e he f hf
    rw [List.mem_singleton] at hf
    subst hf
    exact hn e he
  by_cases hl : a.nodes_.length = 0
  · have hnil : a.nodes_ = [] := List.length_eq_zero.mp hl
    refine ⟨hpair, ?_, ?_, ?_, ?_⟩
    · simp [add_local_node, hnil, first_gid]
    · simp [add_local_node, hnil, last_gid]
    · simp [add_local_node, hnil]
    · simp [add_local_node, hnil]
  · have hnn : a.nodes_ ≠ [] := fun hc => hl (by rw [hc]; rfl)
    obtain ⟨e1, he1, hf⟩ := first_gid_mem a hnn
    obtain ⟨e2, he2, hlast⟩ := last_gid_mem a hnn
    have hmin : min a.local_min_gid_ n.gid = a.local_min_gid_ := by
      have := hn e1 he1
      rw [h2, ← hf]
      omega
    have hmax : max a.local_max_gid_ n.gid = n.gid := by
      have := hn e2 he2
      rw [h3, ← hlast]
      omega
    have hfirst : (a.add_local_node n).first_gid = a.first_gid := by
      unfold first_gid
      rw [nodes_add_local_node]
      cases hc : a.nodes_ with
      | nil => exact absurd hc hnn
      | cons x xs => simp
    have hlastn : (a.add_local_node n).last_gid = n.gid := by
      unfold last_gid
      rw [nodes_add_local_node]
      simp [entry_of]
    refine ⟨hpair, ?_, ?_, ?_, ?_⟩
    · rw [hfirst, ← h2]
      simp only [add_local_node, hl, if_false]
      exact hmin
    · rw [hlastn]
      simp only [add_local_node, hl, if_false]
      exact hmax
    · simp only [add_local_node, hl, if_false]
      rw [hmax]
      exact le_max_right _ _
    · simp only [add_local_node, hl, if_false]
      rw [if_neg hne]

theorem scalars_ok_foldl (ops : List Op) (a : SparseNodeArray) (held : List Node)
    (hheld : a.nodes_ = held.map entry_of) (h : scalars_ok a)
    (hinc : adds_increasing held ops) :
    scalars_ok (ops.foldl Op.apply a) := by
  induction ops generalizing a held with
  | nil => exact h
  | cons op rest ih =>
    rw [List.foldl_cons]
    cases op with
    | add_local_node n =>
      obtain ⟨hlt, hrest⟩ := hinc
      refine ih (a.add_local_node n) (held ++ [n]) ?_ ?_ hrest
      · rw [nodes_add_local_node, hheld]
        simp
      · apply scalars_ok_add_local_node a n h
        intro e he
        rw [hheld, List.mem_map] at he
        obtain ⟨m, hm, hme⟩ := he
        subst hme
        exact hlt m hm
    | update_max_gid g =>
      refine ih (a.update_max_gid g) held ?_ (scalars_ok_update_max_gid a g h) hinc
      rw [nodes_update_max_gid, hheld]
    | clear =>
      exact ih a.clear [] rfl (scalars_ok_clear a) hinc

theorem scalars_ok_run (ops : List Op) (hinc : adds_increasing [] ops) :
    scalars_ok (run ops) :=
  scalars_ok_foldl ops empty [] rfl scalars_ok_empty hinc

theorem adds_increasing_map_add (ns held : List Node)
    (h : gid_increasing (held ++ ns)) :
    adds_increasing held (ns.map Op.add_local_node) := by
  induction ns generalizing held with
  | nil => trivial
  | cons n rest ih =>
    unfold gid_increasing at h
    refine ⟨?_, ?_⟩
    · intro m hm
      rw [List.pairwise_append] at h
      exact h.2.2 m hm n (List.mem_cons_self _ _)
    · apply ih
      unfold gid_increasing
      rw [List.append_assoc]
      exact h

theorem scalars_ok_add_all (ns : List Node) (h : gid_increasing ns) :
    scalars_ok (add_all ns) := by
  rw [add_all_eq_run]
  exact scalars_ok_run _ (adds_increasing_map_add ns [] (by simpa using h))

/-- C12: for every registry state and every gid, after `update_max_gid( gid )`
`get_max_gid()` equals the larger of the old `max_gid` and `gid`, and `size()`, the
entry sequence, `local_min_gid`, `local_max_gid` and the scale are unchanged (no entry
is added). -/
theorem C12_update_max_gid_frame (a : SparseNodeArray) (gid : Nat) :
    (a.update_max_gid gid).get_max_gid = max a.get_max_gid gid ∧
    (a.update_max_gid gid).size = a.size ∧
    (a.update_max_gid gid).nodes_ = a.nodes_ ∧
    (a.update_max_gid gid).local_min_gid_ = a.local_min_gid_ ∧
    (a.update_max_gid gid).local_max_gid_ = a.local_max_gid_ ∧
    (a.update_max_gid gid).gid_idx_scale_ = a.gid_idx_scale_ := by
  unfold update_max_gid get_max_gid size
  split
  · refine ⟨?_, rfl, rfl, rfl, rfl, rfl⟩
    simp only
    omega
  · refine ⟨?_, rfl, rfl, rfl, rfl, rfl⟩
    omega

/-- C16: in every registry state reachable from the empty registry by `add_local_node`
(in increasing GID order), `update_max_gid` and `clear`, `max_gid` is at least the GID
of every local entry, `local_max_gid <= get_max_gid()`, and `local_min_gid` and
`local_max_gid` are the GIDs of the first and of the last entry when the registry is
non-empty. -/
theorem C16_gid_bounds (ops : List Op) (hinc : adds_increasing [] ops) :
    (∀ e ∈ (run ops).nodes_, e.gid_ ≤ (run ops).get_max_gid) ∧
    (run ops).local_max_gid_ ≤ (run ops).get_max_gid ∧
    (∀ e, (run ops).nodes_.head? = some e → (run ops).local_min_gid_ = e.gid_) ∧
    (∀ e, (run ops).nodes_.getLast? = some e → (run ops).local_max_gid_ = e.gid_) := by
  obtain ⟨-, h2, h3, h4, -⟩ := scalars_ok_run ops hinc
  refine ⟨fun e he => (bounds_ok_run ops e he).2.1, h4, ?_, ?_⟩
  · intro e he
    rw [h2]
    simp [first_gid, he]
  · intro e he
    rw [h3]
    simp [last_gid, he]

/-- Witness of C16: after adding GIDs `[0, 4, 8, 12, 16]` and `update_max_gid( 20 )`,
`local_min_gid` is 0, `local_max_gid` is 16 and does not exceed `get_max_gid()`. -/
theorem C16_gid_bounds_witness :
    adds_increasing [] scenario_ops ∧
    (run scenario_ops).local_max_gid_ ≤ (run scenario_ops).get_max_gid ∧
    (run scenario_ops).local_min_gid_ = 0 ∧
    (run scenario_ops).local_max_gid_ = 16 :=
  ⟨by simp [adds_increasing, scenario_ops, scenario_nodes],
    (C16_gid_bounds scenario_ops
      (by simp [adds_increasing, scenario_ops, scenario_nodes])).2.1,
    (C16_gid_bounds scenario_ops
      (by simp [adds_increasing, scenario_ops, scenario_nodes])).2.2.1 ⟨⟨100, 0⟩, 0⟩ rfl,
    (C16_gid_bounds scenario_ops
      (by simp [adds_increasing, scenario_ops, scenario_nodes])).2.2.2 ⟨⟨104, 16⟩, 16⟩ rfl⟩

/-- A lookup that finds something finds it at a position at or after the estimate, and
the entry at that position carries the requested GID and the returned handle. -/
theorem find_by_gid_sound (a : SparseNodeArray) (g j : Nat) (n : Node)
    (h : a.find_by_gid g = some (j, n)) :
    a.estimate_index g ≤ j ∧ ∃ hj : j < a.nodes_.length,
      (a.nodes_.get ⟨j, hj⟩).gid_ = g ∧ (a.nodes_.get ⟨j, hj⟩).node_ = n := by
  unfold find_by_gid at h
  split at h
  · exact absurd h (by simp)
  · obtain ⟨hle, hj, h1, h2⟩ := scan_right_sound g _ _ j n h
    have hlen := hj
    rw [List.length_drop] at hlen
    have hidx : a.estimate_index g + (j - a.estimate_index g) = j := by omega
    refine ⟨hle, by omega, ?_, ?_⟩
    · simp only [List.get_eq_getElem, List.getElem_drop] at h1
      simpa [hidx] using h1
    · simp only [List.get_eq_getElem, List.getElem_drop] at h2
      simpa [hidx] using h2

/-- In a strictly ascending sequence, two positions with the same GID are the same. -/
theorem index_unique (l : List NodeEntry) (hasc : l.Pairwise (fun e f => e.gid_ < f.gid_))
    (i j : Nat) (hi : i < l.length) (hj : j < l.length)
    (h : (l.get ⟨i, hi⟩).gid_ = (l.get ⟨j, hj⟩).gid_) : i = j := by
  have hp := List.pairwise_iff_getElem.mp hasc
  simp only [List.get_eq_getElem] at h
  rcases Nat.lt_trichotomy i j with hlt | heq | hgt
  · have := hp i j hi hj hlt
    omega
  · exact heq
  · have := hp j i hj hi hgt
    omega

/-- C15: for every registry with strictly ascending entries and every gid, whenever
`get_node_by_gid( gid )` returns a non-null entry, the position of the entry with that
GID is at or after the clamped interpolated estimate; an entry with the requested GID
that lies to the left of the estimate is never matched: the lookup returns null. -/
theorem C15_never_left_of_estimate (a : SparseNodeArray) (g : Nat)
    (hasc : a.nodes_.Pairwise (fun e f => e.gid_ < f.gid_)) :
    (∀ j n, a.find_by_gid g = some (j, n) → a.estimate_index g ≤ j) ∧
    (∀ n, a.get_node_by_gid g = some n →
      ∀ j (hj : j < a.nodes_.length), (a.nodes_.get ⟨j, hj⟩).gid_ = g →
        a.estimate_index g ≤ j ∧ (a.nodes_.get ⟨j, hj⟩).node_ = n) ∧
    (∀ j (hj : j < a.nodes_.length), (a.nodes_.get ⟨j, hj⟩).gid_ = g →
      j < a.estimate_index g → a.get_node_by_gid g = none) := by
  have key : ∀ n, a.get_node_by_gid g = some n →
      ∀ j (hj : j < a.nodes_.length), (a.nodes_.get ⟨j, hj⟩).gid_ = g →
        a.estimate_index g ≤ j ∧ (a.nodes_.get ⟨j, hj⟩).node_ = n := by
    intro n hn j hj hg
    unfold get_node_by_gid at hn
    rw [Option.map_eq_some'] at hn
    obtain ⟨⟨j0, n0⟩, hf, hsnd⟩ := hn
    simp only at hsnd
    subst hsnd
    obtain ⟨hle, hj0, h1, h2⟩ := find_by_gid_sound a g j0 n0 hf
    have hjj : j = j0 := index_unique a.nodes_ hasc j j0 hj hj0 (by rw [hg, h1])
    subst hjj
    exact ⟨hle, h2⟩
  refine ⟨fun j n h => (find_by_gid_sound a g j n h).1, key, ?_⟩
  intro j hj hg hlt
  cases hres : a.get_node_by_gid g with
  | none => rfl
  | some n =>
    have := (key n hres j hj hg).1
    omega

/-- Witness of C15: with GIDs `[0, 5, 6, 7]` the entry with GID 5 is at position 1, left
of the estimate 2, and `get_node_by_gid( 5 )` returns null. -/
theorem C15_never_left_of_estimate_witness :
    (add_all skewed_nodes).nodes_.Pairwise (fun e f => e.gid_ < f.gid_) ∧
    (add_all skewed_nodes).nodes_[1]? = some ⟨⟨101, 5⟩, 5⟩ ∧
    (add_all skewed_nodes).estimate_index 5 = 2 ∧
    (add_all skewed_nodes).get_node_by_gid 5 = none := by
  have hasc : (add_all skewed_nodes).nodes_.Pairwise (fun e f => e.gid_ < f.gid_) := by
    rw [nodes_add_all]
    decide
  have hest : (add_all skewed_nodes).estimate_index 5 = 2 := by
    simp [skewed_nodes, add_all, add_local_node, empty, estimate_index]
    norm_num
    rfl
  have hlen : 1 < (add_all skewed_nodes).nodes_.length := by
    rw [nodes_add_all]
    decide
  refine ⟨hasc, by rw [nodes_add_all]; rfl, hest, ?_⟩
  exact (C15_never_left_of_estimate (add_all skewed_nodes) 5 hasc).2.2 1 hlen
    (by simp only [List.get_eq_getElem, nodes_add_all]; rfl) (by rw [hest]; decide)

theorem floor_mul_div (x y z : ℕ) :
    ⌊(x : ℚ) * ((y : ℚ) / (z : ℚ))⌋ = ((x * y / z : ℕ) : ℤ) := by
  rw [← mul_div_assoc]
  have h := Rat.floor_intCast_div_natCast ((x * y : ℕ) : ℤ) z
  push_cast at h ⊢
  rw [h]

/-- With the scale `(count-1) / (local_max_gid - local_min_gid)`, the clamped estimate
is a quotient of natural numbers. -/
theorem estimate_index_eq (a : SparseNodeArray) (g : Nat)
    (hscale : a.gid_idx_scale_
      = ((a.nodes_.length - 1 : Nat) : ℚ) / ((a.local_max_gid_ - a.local_min_gid_ : Nat) : ℚ)) :
    a.estimate_index g
      = min ((g - a.local_min_gid_) * (a.nodes_.length - 1)
          / (a.local_max_gid_ - a.local_min_gid_)) (a.nodes_.length - 1) := by
  unfold estimate_index
  rw [hscale, floor_mul_div]
  generalize (g - a.local_min_gid_) * (a.nodes_.length - 1)
    / (a.local_max_gid_ - a.local_min_gid_) = X
  generalize a.nodes_.length - 1 = Y
  omega

theorem first_lt_last (a : SparseNodeArray) (hs : scalars_ok a) (h2 : 2 ≤ a.nodes_.length) :
    a.local_min_gid_ < a.local_max_gid_ := by
  obtain ⟨h1, hmin, hmax, -, -⟩ := hs
  rw [hmin, hmax]
  unfold first_gid last_gid
  cases hn : a.nodes_ with
  | nil => rw [hn] at h2; simp at h2
  | cons e rest =>
    cases hr : rest with
    | nil => rw [hn, hr] at h2; simp at h2
    | cons f rest2 =>
      rw [hn, hr] at h1
      have hlastmem : (f :: rest2).getLast (by simp) ∈ f :: rest2 := List.getLast_mem _
      have hlt := (List.pairwise_cons.mp h1).1 _ hlastmem
      simp only [List.head?_cons, Option.map_some', Option.getD_some]
      rw [List.getLast?_cons_cons, List.getLast?_eq_getLast _ (by simp)]
      simpa using hlt

theorem scale_of_scalars_ok (a : SparseNodeArray) (hs : scalars_ok a) (hne : a.nodes_ ≠ []) :
    a.gid_idx_scale_
      = ((a.nodes_.length - 1 : Nat) : ℚ) / ((a.local_max_gid_ - a.local_min_gid_ : Nat) : ℚ) := by
  obtain ⟨-, -, -, -, h5⟩ := hs
  rw [h5, if_neg hne]

/-- A registry that holds a single entry finds the GID of that entry, whatever its
scale is: the estimate is clamped to position 0. -/
theorem single_entry_found (n : Node) (q : ℚ) (mx : Nat) (hmx : n.gid ≤ mx) :
    get_node_by_gid
      { nodes_ := [entry_of n], max_gid_ := mx, local_min_gid_ := n.gid,
        local_max_gid_ := n.gid, gid_idx_scale_ := q } n.gid = some n := by
  have hest : estimate_index
      { nodes_ := [entry_of n], max_gid_ := mx, local_min_gid_ := n.gid,
        local_max_gid_ := n.gid, gid_idx_scale_ := q } n.gid = 0 := by
    simp [estimate_index]
  unfold get_node_by_gid find_by_gid
  rw [hest]
  simp [scan_right, entry_of]
  omega

theorem entry_le_last_gid (a : SparseNodeArray)
    (hasc : a.nodes_.Pairwise (fun e f => e.gid_ < f.gid_)) (e : NodeEntry)
    (he : e ∈ a.nodes_) : e.gid_ ≤ a.last_gid := by
  have hne : a.nodes_ ≠ [] := List.ne_nil_of_mem he
  unfold last_gid
  rw [List.getLast?_eq_getLast _ hne]
  simp only [Option.map_some', Option.getD_some]
  rw [← List.dropLast_append_getLast hne] at hasc he
  rw [List.pairwise_append] at hasc
  rw [List.mem_append, List.mem_singleton] at he
  rcases he with he | he
  · exact le_of_lt (hasc.2.2 e he _ (List.mem_singleton_self _))
  · rw [he]

/-- For at least two nodes added in increasing GID order, the estimate of the entry at
position `k` is at or before `k` exactly when
`(g - local_min_gid) * (count-1) < (k+1) * (local_max_gid - local_min_gid)`. -/
theorem estimate_le_iff (ns : List Node) (hinc : gid_increasing ns) (k : Nat)
    (hk : k < ns.length) (h2 : 2 ≤ ns.length) :
    (add_all ns).estimate_index (ns.get ⟨k, hk⟩).gid ≤ k ↔
      ((ns.get ⟨k, hk⟩).gid - (add_all ns).local_min_gid_) * (ns.length - 1)
        < (k + 1) * ((add_all ns).local_max_gid_ - (add_all ns).local_min_gid_) := by
  have hs := scalars_ok_add_all ns hinc
  have hnodes := nodes_add_all ns
  have hlen : (add_all ns).nodes_.length = ns.length := by rw [hnodes, List.length_map]
  have hne : (add_all ns).nodes_ ≠ [] := by
    intro hc
    rw [hc] at hlen
    simp at hlen
    omega
  have hD : (add_all ns).local_min_gid_ < (add_all ns).local_max_gid_ :=
    first_lt_last _ hs (by omega)
  have hmem : entry_of (ns.get ⟨k, hk⟩) ∈ (add_all ns).nodes_ := by
    rw [hnodes]
    exact List.mem_map_of_mem _ (List.get_mem ns k hk)
  have hgle : (ns.get ⟨k, hk⟩).gid ≤ (add_all ns).local_max_gid_ := by
    rw [hs.2.2.1]
    exact entry_le_last_gid _ hs.1 _ hmem
  rw [estimate_index_eq _ _ (scale_of_scalars_ok _ hs hne), hlen]
  generalize (ns.get ⟨k, hk⟩).gid = g at hgle ⊢
  generalize (add_all ns).local_min_gid_ = lo at hD hgle ⊢
  generalize (add_all ns).local_max_gid_ = hi at hD hgle ⊢
  have hDpos : 0 < hi - lo := by omega
  rw [min_le_iff, Nat.lt_succ_iff.symm, Nat.div_lt_iff_lt_mul hDpos]
  constructor
  · rintro (h | h)
    · exact h
    · have hk1 : k + 1 = ns.length := by omega
      rw [hk1]
      calc (g - lo) * (ns.length - 1) ≤ (hi - lo) * (ns.length - 1) :=
            Nat.mul_le_mul_right _ (by omega)
        _ < (hi - lo) * ns.length := (Nat.mul_lt_mul_left hDpos).mpr (by omega)
        _ = ns.length * (hi - lo) := Nat.mul_comm _ _
  · intro h
    exact Or.inl h

/-- The GIDs below `N` with `g mod P == r`, in increasing order, are
`r, r + P, r + 2 P, ...`; the next one is not below `N`. -/
theorem round_robin_get (P r : Nat) (hr : r < P) (N : Nat) :
    N ≤ r + ((List.range N).filter (fun g => g % P = r)).length * P ∧
    ∀ k (hk : k < ((List.range N).filter (fun g => g % P = r)).length),
      ((List.range N).filter (fun g => g % P = r)).get ⟨k, hk⟩ = r + k * P := by
  induction N with
  | zero => simp
  | succ N ih =>
    obtain ⟨hinv, hget⟩ := ih
    rw [List.range_succ, List.filter_append]
    generalize hL : (List.range N).filter (fun g => decide (g % P = r)) = L at hinv hget ⊢
    have hlt : ∀ x ∈ L, x < N := by
      intro x hx
      rw [← hL] at hx
      exact List.mem_range.mp (List.mem_filter.mp hx).1
    by_cases hN : N % P = r
    · have hsing : [N].filter (fun g => decide (g % P = r)) = [N] := by simp [hN]
      rw [hsing]
      have hNeq : N = r + L.length * P := by
        have hdiv := Nat.mod_add_div N P
        rw [hN] at hdiv
        have hle : L.length ≤ N / P := by
          by_cases h0 : L.length = 0
          · rw [h0]
            exact Nat.zero_le _
          · have hlast := hget (L.length - 1) (by omega)
            have hmem := List.get_mem L (L.length - 1) (by omega)
            have hx := hlt _ hmem
            rw [hlast] at hx
            have h3 : (L.length - 1) * P < (N / P) * P := by
              rw [Nat.mul_comm (N / P)]
              omega
            have := Nat.lt_of_mul_lt_mul_right h3
            omega
        have h4 : L.length * P ≤ (N / P) * P := Nat.mul_le_mul_right P hle
        rw [Nat.mul_comm (N / P)] at h4
        omega
      refine ⟨?_, ?_⟩
      · rw [List.length_append, List.length_singleton, Nat.add_mul]
        omega
      · intro k hk
        by_cases hkl : k < L.length
        · rw [List.get_eq_getElem, List.getElem_append_left hkl]
          exact hget k hkl
        · rw [List.length_append, List.length_singleton] at hk
          have hkeq : k = L.length := by omega
          subst hkeq
          rw [List.get_eq_getElem, List.getElem_append_right (le_refl _)]
          simpa using hNeq
    · have hsing : [N].filter (fun g => decide (g % P = r)) = [] := by simp [hN]
      rw [hsing, List.append_nil]
      refine ⟨?_, hget⟩
      have hmod : (r + L.length * P) % P = r := by
        rw [Nat.add_mul_mod_self_right]
        exact Nat.mod_eq_of_lt hr
      have hne : N ≠ r + L.length * P := by
        intro hc
        rw [← hc] at hmod
        exact hN hmod
      omega

theorem local_gids_eq_round_robin (P r N : Nat) (R : List Nat)
    (hR : ∀ x ∈ R, x % P = r) :
    local_gids P r R N = (List.range N).filter (fun g => g % P = r) := by
  unfold local_gids
  apply List.filter_congr
  intro x _
  by_cases hx : x % P = r
  · simp [hx]
  · have : x ∉ R := fun hc => hx (hR x hc)
    simp [hx, this]

theorem local_gids_pairwise (P r N : Nat) (R : List Nat) :
    (local_gids P r R N).Pairwise (fun x y => x < y) :=
  List.Pairwise.filter _ (List.pairwise_lt_range N)

theorem gid_increasing_nodes_of_gids (gs : List Nat) (h : gs.Pairwise (fun x y => x < y)) :
    gid_increasing (nodes_of_gids gs) := by
  unfold gid_increasing nodes_of_gids
  rw [List.pairwise_map]
  exact h

theorem local_min_gid_add_all (ns : List Node) (hinc : gid_increasing ns)
    (h0 : 0 < ns.length) :
    (add_all ns).local_min_gid_ = (ns.get ⟨0, h0⟩).gid := by
  rw [(scalars_ok_add_all ns hinc).2.1]
  unfold first_gid
  rw [nodes_add_all]
  cases ns with
  | nil => simp at h0
  | cons n rest => simp [entry_of]

theorem local_max_gid_add_all (ns : List Node) (hinc : gid_increasing ns)
    (h0 : 0 < ns.length) :
    (add_all ns).local_max_gid_ = (ns.get ⟨ns.length - 1, by omega⟩).gid := by
  rw [(scalars_ok_add_all ns hinc).2.2.1]
  unfold last_gid
  rw [nodes_add_all, List.getLast?_eq_getElem?, List.length_map,
    List.getElem?_map, List.getElem?_eq_getElem (by omega)]
  simp [entry_of]

theorem get_nodes_of_gids (gs : List Nat) (k : Nat) (hk : k < gs.length) :
    (nodes_of_gids gs).get ⟨k, by simpa [nodes_of_gids] using hk⟩
      = ⟨gs.get ⟨k, hk⟩ + 100, gs.get ⟨k, hk⟩⟩ := by
  simp [nodes_of_gids]

/-- Without replicated GIDs beyond the round-robin ones, the estimate is the true
position. -/
theorem estimate_round_robin (P r N : Nat) (R : List Nat) (k : Nat)
    (hk : k < (local_gids P r R N).length) (hr : r < P) (hR : ∀ x ∈ R, x % P = r) :
    (rank_registry P r R N).estimate_index ((local_gids P r R N).get ⟨k, hk⟩) = k := by
  have hrr := round_robin_get P r hr N
  rw [← local_gids_eq_round_robin P r N R hR] at hrr
  obtain ⟨-, hget⟩ := hrr
  have hinc := gid_increasing_nodes_of_gids _ (local_gids_pairwise P r N R)
  unfold rank_registry
  generalize local_gids P r R N = gs at hk hget hinc
  have hlen : (nodes_of_gids gs).length = gs.length := by simp [nodes_of_gids]
  have hs := scalars_ok_add_all _ hinc
  have hnlen : (add_all (nodes_of_gids gs)).nodes_.length = gs.length := by
    rw [nodes_add_all, List.length_map, hlen]
  have hne : (add_all (nodes_of_gids gs)).nodes_ ≠ [] := by
    intro hc
    rw [hc] at hnlen
    simp at hnlen
    omega
  have hmin := local_min_gid_add_all _ hinc (by omega)
  have hmax := local_max_gid_add_all _ hinc (by omega)
  have h0 := get_nodes_of_gids gs 0 (by omega)
  have hl := get_nodes_of_gids gs (gs.length - 1) (by omega)
  simp only [hlen] at hmax
  rw [h0] at hmin
  rw [hl] at hmax
  simp only at hmin hmax
  rw [hget 0 (by omega)] at hmin
  rw [hget (gs.length - 1) (by omega)] at hmax
  rw [estimate_index_eq _ _ (scale_of_scalars_ok _ hs hne), hnlen, hmin, hmax, hget k hk]
  have e1 : r + k * P - (r + 0 * P) = k * P := by omega
  have e2 : r + (gs.length - 1) * P - (r + 0 * P) = (gs.length - 1) * P := by omega
  rw [e1, e2]
  by_cases h1 : gs.length - 1 = 0
  · rw [h1]
    simp
    omega
  · have hpos : 0 < (gs.length - 1) * P := Nat.mul_pos (by omega) (by omega)
    have e3 : k * P * (gs.length - 1) = k * ((gs.length - 1) * P) := by ring
    rw [e3, Nat.mul_div_cancel k hpos]
    exact min_eq_left (by omega)

end SparseNodeArray

/-! ## Theorems: independence of the two rule tables, events to devices -/

namespace ConnectionManager

theorem register_third_conn_builder_ok (m : ConnectionManager) (cb : ConnBuilder)
    (name : String) (h : m.thirdconnruledict_.known name = false) :
    m.register_third_conn_builder cb name =
      (Except.ok (),
        { m with
          thirdconnbuilder_factories_ := m.thirdconnbuilder_factories_ ++ [{ builder := cb }],
          thirdconnruledict_ :=
            m.thirdconnruledict_.insert name m.thirdconnbuilder_factories_.length }) := by
  simp [register_third_conn_builder, h]

theorem register_third_conn_builder_error (m : ConnectionManager) (cb : ConnBuilder)
    (name : String) (h : m.thirdconnruledict_.known name = true) :
    m.register_third_conn_builder cb name = (Except.error Fatal.assertion_failed, m) := by
  simp [register_third_conn_builder, h]

/-- C17: the bipartite and the third-factor rule tables are independent:
`register_conn_builder` leaves the third-factor name table and factory sequence
unchanged, `register_third_conn_builder` leaves the bipartite name table and factory
sequence unchanged, and a name that is not yet in one table is registered there
successfully, whether or not it is registered in the other table, and is bound to the
factory count of the table it is registered in. -/
theorem C17_tables_independent (m : ConnectionManager) (cb : ConnBuilder) (name : String) :
    ((m.register_conn_builder cb name).2.thirdconnruledict_ = m.thirdconnruledict_ ∧
      (m.register_conn_builder cb name).2.thirdconnbuilder_factories_
        = m.thirdconnbuilder_factories_) ∧
    ((m.register_third_conn_builder cb name).2.connruledict_ = m.connruledict_ ∧
      (m.register_third_conn_builder cb name).2.connbuilder_factories_
        = m.connbuilder_factories_) ∧
    (m.thirdconnruledict_.known name = false →
      (m.register_third_conn_builder cb name).1 = Except.ok () ∧
      (m.register_third_conn_builder cb name).2.thirdconnruledict_.lookup name
        = some m.thirdconnbuilder_factories_.length) ∧
    (m.connruledict_.known name = false →
      (m.register_conn_builder cb name).1 = Except.ok () ∧
      (m.register_conn_builder cb name).2.connruledict_.lookup name
        = some m.connbuilder_factories_.length) := by
  refine ⟨?_, ?_, ?_, ?_⟩
  · cases hk : m.connruledict_.known name with
    | false =>
      rw [register_conn_builder_ok m cb name hk]
      exact ⟨rfl, rfl⟩
    | true =>
      rw [register_conn_builder_error m cb name hk]
      exact ⟨rfl, rfl⟩
  · cases hk : m.thirdconnruledict_.known name with
    | false =>
      rw [register_third_conn_builder_ok m cb name hk]
      exact ⟨rfl, rfl⟩
    | true =>
      rw [register_third_conn_builder_error m cb name hk]
      exact ⟨rfl, rfl⟩
  · intro hk
    rw [register_third_conn_builder_ok m cb name hk]
    exact ⟨rfl, Dictionary.lookup_insert_self _ _ _ hk⟩
  · intro hk
    rw [register_conn_builder_ok m cb name hk]
    exact ⟨rfl, Dictionary.lookup_insert_self _ _ _ hk⟩

/-- Witness of C17: with `"one_to_one"` and `"all_to_all"` registered as bipartite rules
(ids 0 and 1), `"all_to_all"` is registered successfully as a third-factor rule and
gets the id 0, the factory count of the third-factor table. -/
theorem C17_tables_independent_witness :
    (empty.register_all scenario_rules).2.connruledict_.known "all_to_all" = true ∧
    (((empty.register_all scenario_rules).2.register_third_conn_builder ⟨5⟩
      "all_to_all").1 = Except.ok () ∧
    ((empty.register_all scenario_rules).2.register_third_conn_builder ⟨5⟩
      "all_to_all").2.thirdconnruledict_.lookup "all_to_all"
      = some (empty.register_all scenario_rules).2.thirdconnbuilder_factories_.length) ∧
    (empty.register_all scenario_rules).2.thirdconnbuilder_factories_.length = 0 :=
  ⟨by decide,
    (C17_tables_independent (empty.register_all scenario_rules).2 ⟨5⟩ "all_to_all").2.2.1
      (by decide),
    by decide⟩

/-- C11: for every thread table and every source node id with `K >= 0` devices
subscribed on that thread, `send_to_devices` performs exactly `K` deliveries, each of
the given event and one to each subscribed device, none when `K == 0`, and it leaves
the routing tables unchanged. -/
theorem C11_send_to_devices (t : TargetTableDevices)
    (get_connection_models : Nat → List ConnectorModel) (tid source_node_id : Nat)
    (e : Event) (table : ThreadDeviceTable) (htid : t.threads[tid]? = some table) :
    (send_to_devices t get_connection_models tid source_node_id e).map
        (fun r => r.1.length) = some (table.subscribed source_node_id).length ∧
    (send_to_devices t get_connection_models tid source_node_id e).map
        (fun r => r.1.map Delivery.target) = some (table.subscribed source_node_id) ∧
    (send_to_devices t get_connection_models tid source_node_id e).map
        (fun r => r.1.map Delivery.event)
      = some (List.replicate (table.subscribed source_node_id).length e) ∧
    (send_to_devices t get_connection_models tid source_node_id e).map
        (fun r => r.2) = some t ∧
    ((table.subscribed source_node_id).length = 0 →
      (send_to_devices t get_connection_models tid source_node_id e).map
        (fun r => r.1) = some []) := by
  have h : send_to_devices t get_connection_models tid source_node_id e
      = some ((table.subscribed source_node_id).map (fun d => { target := d, event := e }),
          t) := by
    simp [send_to_devices, TargetTableDevices.send_to_device, htid]
  rw [h]
  refine ⟨by simp, by simp [Function.comp_def], ?_, rfl, ?_⟩
  · simp only [Option.map_some', List.map_map, Option.some.injEq]
    rw [List.eq_replicate_iff]
    refine ⟨by simp, ?_⟩
    intro b hb
    rw [List.mem_map] at hb
    obtain ⟨x, -, hx⟩ := hb
    rw [← hx]
    rfl
  · intro h0
    rw [List.length_eq_zero.mp h0]
    rfl

/-- Witness of C11: on thread 0 of the example router the source node 7 has three
devices subscribed and gets three deliveries; the source node 8 has none and gets
none; the tables are the same afterwards. -/
theorem C11_send_to_devices_witness :
    (send_to_devices example_router (fun _ => []) 0 7 ⟨1⟩).map (fun r => r.1.length)
      = some 3 ∧
    (send_to_devices example_router (fun _ => []) 0 7 ⟨1⟩).map (fun r => r.2)
      = some example_router ∧
    (send_to_devices example_router (fun _ => []) 0 8 ⟨1⟩).map (fun r => r.1) = some [] :=
  ⟨(C11_send_to_devices example_router (fun _ => []) 0 7 ⟨1⟩
      { to_devices := [(7, [20, 21, 22]), (8, [])], from_devices := [(0, [7])] } rfl).1,
    (C11_send_to_devices example_router (fun _ => []) 0 7 ⟨1⟩
      { to_devices := [(7, [20, 21, 22]), (8, [])], from_devices := [(0, [7])] } rfl).2.2.2.1,
    (C11_send_to_devices example_router (fun _ => []) 0 8 ⟨1⟩
      { to_devices := [(7, [20, 21, 22]), (8, [])], from_devices := [(0, [7])] } rfl).2.2.2.2
      rfl⟩

end ConnectionManager

/-! ## Theorems: `StopwatchBase`, invariant and pausing -/

namespace timers

namespace StopwatchBase

theorem end_ge_beg_apply (sw : StopwatchBase) (t0 : Nat) (c : Call) (h : end_ge_beg sw t0) :
    match c with
    | Call.start now => t0 ≤ now → now < SIZE_T_MOD → end_ge_beg (Call.apply sw c) now
    | Call.stop now => t0 ≤ now → now < SIZE_T_MOD → end_ge_beg (Call.apply sw c) now
    | Call.reset => end_ge_beg (Call.apply sw c) t0 := by
  obtain ⟨h1, h2, h3⟩ := h
  cases c with
  | start now =>
    intro hle hlt
    cases hr : sw._running with
    | true =>
      simp only [Call.apply, start, isRunning, hr, not_true_eq_false, if_false]
      exact ⟨h1, le_trans h2 hle, hlt⟩
    | false =>
      simp only [Call.apply, start, isRunning, hr, Bool.false_eq_true, not_false_eq_true,
        if_true]
      exact ⟨le_refl _, le_refl _, hlt⟩
  | stop now =>
    intro hle hlt
    cases hr : sw._running with
    | true =>
      simp only [Call.apply, stop, isRunning, hr, if_true]
      exact ⟨le_trans h1 (le_trans h2 hle), le_refl _, hlt⟩
    | false =>
      simp only [Call.apply, stop, isRunning, hr, Bool.false_eq_true, if_false]
      exact ⟨h1, le_trans h2 hle, hlt⟩
  | reset =>
    exact ⟨le_refl _, Nat.zero_le _, h3⟩

theorem end_ge_beg_foldl (calls : List Call) (sw : StopwatchBase) (t0 : Nat)
    (h : end_ge_beg sw t0) (hc : calls_clock_ok t0 calls) :
    end_ge_beg (calls.foldl Call.apply sw) (last_reading t0 calls) := by
  induction calls generalizing sw t0 with
  | nil => exact h
  | cons c rest ih =>
    rw [List.foldl_cons]
    have hstep := end_ge_beg_apply sw t0 c h
    cases c with
    | start now =>
      obtain ⟨hle, hlt, hrest⟩ := hc
      exact ih _ now (hstep hle hlt) hrest
    | stop now =>
      obtain ⟨hle, hlt, hrest⟩ := hc
      exact ih _ now (hstep hle hlt) hrest
    | reset =>
      exact ih _ t0 hstep hc

/-- C18: for a non-decreasing clock, `_end >= _beg` holds in every `StopwatchBase` state
reachable from construction by any sequence of `start`, `stop` and `reset`, so the
unsigned subtraction `_end - _beg` (in `start` and `elapsed`) does not wrap around, and
neither does `now - _beg` (in `elapsed` while running) for a clock reading `now` at or
after the last one. -/
theorem C18_end_ge_beg (uninitialised : StopwatchBase) (calls : List Call)
    (hclock : calls_clock_ok 0 calls) :
    (run_calls uninitialised calls)._beg ≤ (run_calls uninitialised calls)._end ∧
    size_t_sub (run_calls uninitialised calls)._end (run_calls uninitialised calls)._beg
      = (run_calls uninitialised calls)._end - (run_calls uninitialised calls)._beg ∧
    (∀ now, last_reading 0 calls ≤ now → now < SIZE_T_MOD →
      (run_calls uninitialised calls)._beg ≤ now ∧
      size_t_sub now (run_calls uninitialised calls)._beg
        = now - (run_calls uninitialised calls)._beg) := by
  have h0 : end_ge_beg (init uninitialised) 0 := by
    simp [end_ge_beg, init, reset, SIZE_T_MOD]
  obtain ⟨h1, h2, h3⟩ := end_ge_beg_foldl calls (init uninitialised) 0 h0 hclock
  refine ⟨h1, size_t_sub_of_le _ _ h1 (lt_of_le_of_lt h2 h3), ?_⟩
  intro now hle hlt
  have hb : (run_calls uninitialised calls)._beg ≤ now := le_trans h1 (le_trans h2 hle)
  exact ⟨hb, size_t_sub_of_le _ _ hb hlt⟩

/-- Witness of C18: after the example calls (the last one a `start()` at 9000) the
stopwatch has `_beg = _end = 9000`, and a reading of 9500 is not before `_beg`. -/
theorem C18_end_ge_beg_witness :
    calls_clock_ok 0 example_calls ∧
    (run_calls ⟨7, 3, 9, true⟩ example_calls)._beg
      ≤ (run_calls ⟨7, 3, 9, true⟩ example_calls)._end ∧
    (run_calls ⟨7, 3, 9, true⟩ example_calls)._beg ≤ 9500 := by
  have hc : calls_clock_ok 0 example_calls := by
    norm_num [calls_clock_ok, example_calls, SIZE_T_MOD]
  have h := C18_end_ge_beg ⟨7, 3, 9, true⟩ example_calls hc
  exact ⟨hc, h.1, (h.2.2 9500 (by norm_num [last_reading, example_calls])
    (by norm_num [SIZE_T_MOD])).1⟩

/-- C20: pausing and resuming lose and double-count nothing: for every stopped
`StopwatchBase` state satisfying `_end >= _beg` and every clock value `t`, `elapsed()`
queried at time `t` immediately after `start()` at time `t` equals `elapsed()` before
that `start()`; and for every running state and every `t >= _beg`, `elapsed()` after
`stop()` at time `t` equals the `elapsed()` the running stopwatch reported at time
`t`. -/
theorem C20_pause_resume (sw : StopwatchBase) (t now0 now1 : Nat) (timeunit : timeunit_t) :
    (sw.isRunning = false → sw._beg ≤ sw._end →
      (sw.start t).time_elapsed t = sw.time_elapsed now0 ∧
      (sw.start t).elapsed t timeunit = sw.elapsed now0 timeunit) ∧
    (sw.isRunning = true → sw._beg ≤ t →
      (sw.stop t).time_elapsed now1 = sw.time_elapsed t ∧
      (sw.stop t).elapsed now1 timeunit = sw.elapsed t timeunit) := by
  constructor
  · intro hr _
    have hr2 : sw._running = false := hr
    have ht : (sw.start t).time_elapsed t = sw.time_elapsed now0 := by
      simp only [start, time_elapsed, isRunning, hr2, Bool.false_eq_true, not_false_eq_true,
        if_true, if_false]
      unfold size_t_add size_t_sub SIZE_T_MOD
      omega
    refine ⟨ht, ?_⟩
    unfold elapsed
    rw [ht]
  · intro hr _
    have hr2 : sw._running = true := hr
    have ht : (sw.stop t).time_elapsed now1 = sw.time_elapsed t := by
      simp only [stop, time_elapsed, isRunning, hr2, if_true, Bool.false_eq_true, if_false]
    refine ⟨ht, ?_⟩
    unfold elapsed
    rw [ht]

/-- Witness of C20: a stopped stopwatch that shows 5 s shows 5 s right after being
resumed; a running one asked at reading 9 s shows the same after being stopped
there. -/
theorem C20_pause_resume_witness :
    ((start ⟨1000000000, 4000000000, 2000000000, false⟩ 6000000000).elapsed 6000000000
        timeunit_t.SECONDS
      = elapsed ⟨1000000000, 4000000000, 2000000000, false⟩ 0 timeunit_t.SECONDS) ∧
    ((stop ⟨6000000000, 6000000000, 5000000000, true⟩ 9000000000).elapsed 0
        timeunit_t.SECONDS
      = elapsed ⟨6000000000, 6000000000, 5000000000, true⟩ 9000000000 timeunit_t.SECONDS) :=
  ⟨((C20_pause_resume ⟨1000000000, 4000000000, 2000000000, false⟩ 6000000000 0 0
      timeunit_t.SECONDS).1 rfl (by decide)).2,
    ((C20_pause_resume ⟨6000000000, 6000000000, 5000000000, true⟩ 9000000000 0 0
      timeunit_t.SECONDS).2 rfl (by decide)).2⟩

end StopwatchBase

end timers

/-! ## Theorems: the class template `Stopwatch` -/

namespace Stopwatch

theorem foldl_apply_empty (master : Bool) (calls : List Call) :
    calls.foldl (Call.apply master) Stopwatch.empty = Stopwatch.empty := by
  induction calls with
  | nil => rfl
  | cons c rest ih =>
    rw [List.foldl_cons]
    cases c <;> exact ih

/-- C13, the code at the failing input: with detailed timers deactivated,
`Stopwatch< StopwatchVerbosity::Detailed, StopwatchType::MasterOnly >` (third argument
defaulted to `void`) names the primary template, whatever `use_threaded_timers` is; the
explicit specialization with empty members is named only with
`std::enable_if< true >` as third argument.  On the master thread the object so
declared is running after `start()`, and after `start()` at clock reading 1000 ns and
`stop()` one second later `elapsed()` is 1 second, not 0.  An object of the
specialization with empty members would report not running and 0 after any calls. -/
theorem C13_detailed_master_only_measures (use_threaded_timers : Bool)
    (uninitialised : timers.StopwatchBase) (master : Bool) (calls : List Call)
    (wall_now : Nat) (timeunit : timers.timeunit_t) :
    select_specialization false use_threaded_timers StopwatchVerbosity.Detailed
      StopwatchType.MasterOnly default_third = StopwatchClass.primary ∧
    select_specialization false use_threaded_timers StopwatchVerbosity.Detailed
      StopwatchType.MasterOnly (TemplateArg.enable_if true) = StopwatchClass.empty_master_only ∧
    construct uninitialised (select_specialization false use_threaded_timers
        StopwatchVerbosity.Detailed StopwatchType.MasterOnly default_third)
      = some (Stopwatch.primary (timers.StopwatchBase.init uninitialised)
          (timers.StopwatchBase.init uninitialised)) ∧
    ((Stopwatch.primary (timers.StopwatchBase.init uninitialised)
        (timers.StopwatchBase.init uninitialised)).start true 1000 0).isRunning true = true ∧
    (((Stopwatch.primary (timers.StopwatchBase.init uninitialised)
        (timers.StopwatchBase.init uninitialised)).start true 1000 0).stop true
          1000001000 500).elapsed true wall_now timers.timeunit_t.SECONDS = 1 ∧
    (calls.foldl (Call.apply master) Stopwatch.empty).isRunning master = false ∧
    (calls.foldl (Call.apply master) Stopwatch.empty).elapsed master wall_now timeunit = 0 := by
  have hsel : select_specialization false use_threaded_timers StopwatchVerbosity.Detailed
      StopwatchType.MasterOnly default_third = StopwatchClass.primary := by
    cases use_threaded_timers <;> rfl
  refine ⟨hsel, ?_, ?_, ?_, ?_, ?_, ?_⟩
  · cases use_threaded_timers <;> rfl
  · rw [hsel]
    rfl
  · rfl
  · simp [start, stop, elapsed, timers.StopwatchBase.init, timers.StopwatchBase.reset,
      timers.StopwatchBase.start, timers.StopwatchBase.stop, timers.StopwatchBase.isRunning,
      timers.StopwatchBase.elapsed, timers.StopwatchBase.time_elapsed, timers.size_t_add,
      timers.size_t_sub, timers.SIZE_T_MOD, timers.timeunit_t.val]
  · rw [foldl_apply_empty]
    rfl
  · rw [foldl_apply_empty]
    rfl

end Stopwatch

/-! ## Theorems: `StopwatchBase::get_current_time` -/

namespace timers

namespace StopwatchBase

/-- The value `get_current_time` returns for a reading of `tv_sec` seconds and `tv_nsec`
nanoseconds (`tv_nsec` below `10 ^ 9`) that fits `size_t` is `tv_sec * 10 ^ 9 + tv_nsec`,
the reading in the unit `NANOSEC = 1` of `timeunit_t`; divided by `MICROSEC` it gives the
microseconds of the reading, divided by `SECONDS` it gives `tv_sec` with remainder
`tv_nsec`. -/
theorem get_current_time_nanoseconds (now : timespec)
    (hns : now.tv_nsec < 1000000000)
    (hfit : now.tv_sec * 1000000000 + now.tv_nsec < SIZE_T_MOD) :
    get_current_time now = now.tv_sec * 1000000000 + now.tv_nsec ∧
    get_current_time now = now.tv_sec * timeunit_t.SECONDS.val
      + now.tv_nsec * timeunit_t.NANOSEC.val ∧
    get_current_time now / timeunit_t.MICROSEC.val = claimed_microseconds now ∧
    get_current_time now / timeunit_t.SECONDS.val = now.tv_sec ∧
    get_current_time now % timeunit_t.SECONDS.val = now.tv_nsec := by
  have hval : get_current_time now = now.tv_sec * 1000000000 + now.tv_nsec := by
    unfold get_current_time size_t_add size_t_mul
    simp only [timeunit_t.val]
    unfold SIZE_T_MOD at *
    omega
  refine ⟨hval, ?_, ?_, ?_, ?_⟩
  · rw [hval]
    simp only [timeunit_t.val]
    omega
  · rw [hval]
    simp only [timeunit_t.val, claimed_microseconds]
    omega
  · rw [hval]
    simp only [timeunit_t.val]
    omega
  · rw [hval]
    simp only [timeunit_t.val]
    omega

/-- C21, the code at the failing input: for the clock reading of 1 second and 0
nanoseconds `get_current_time` returns `1000000000`, the nanoseconds of the reading,
while the reading represents `1000000` microseconds; for the reading of 15 seconds and
340000000 nanoseconds it returns `15340000000`, while the reading represents `15340000`
microseconds. -/
theorem C21_get_current_time_returns_nanoseconds :
    get_current_time ⟨1, 0⟩ = 1000000000 ∧
    claimed_microseconds ⟨1, 0⟩ = 1000000 ∧
    get_current_time ⟨1, 0⟩ ≠ claimed_microseconds ⟨1, 0⟩ ∧
    get_current_time ⟨15, 340000000⟩ = 15340000000 ∧
    claimed_microseconds ⟨15, 340000000⟩ = 15340000 := by
  refine ⟨by decide, by decide, by decide, by decide, by decide⟩

end StopwatchBase

end timers

end nest
